import Mathlib

/-!
Verification development for the `tim` space server (crate `tim-code`).

The definitions below are a shallow embedding of the Rust sources:
  * `src/tim-code/src/tim_space.rs`   — event bus (`TimSpace`)
  * `src/tim-code/src/tim_message.rs` — message service (`TimMessage`)
  * `src/tim-code/src/tim_ability.rs` — ability coordinator (`TimAbility`)
  * `src/tim-code/src/tim_timite.rs`  — participant registry (`TimTimite`)
  * `src/tim-code/src/tim_api.rs`     — API facade (`TimApi`)

Machine integers (`u64`) are embedded as `Nat`; `AtomicU64::fetch_add(1)`
returns the previous value and stores `(v + 1) % 2^64` (wrapping).
`tokio::mpsc` channels are abstracted by a single `chanOpen : Bool` flag:
`send` on an open channel awaits when the buffer is full and only errors
when the receiver has been dropped, so delivery succeeds exactly when the
channel is open, and `is_closed` is `!chanOpen`.  The `HashMap` subscriber
registry is embedded as an association list whose key uniqueness is an
invariant (`HashMap::insert` = replace-by-key, `HashMap::remove` =
remove-by-key).  Wall-clock timestamps (`emitted_at`) are irrelevant to
every property below and are omitted from event metadata.

The storage backend used by these modules (struct `TimStorage` with
`fetch_max_event_id`, `store_space_event`, `timeline`,
`fetch_max_message_id`, `store_message`, `fetch_max_call_ability_id`,
`store_call_ability`, `fetch_call_ability`, `store_timite_capability`)
is not present in the sources (the `tim_storage.rs` file in the tree is a
stale earlier draft that lacks all of these functions, only their callers
and the integration tests survive); those operations are modelled from
the spec, each with a doc comment saying so.
-/

namespace Tim

/-- Constant `2^64`, the modulus of wrapping `u64` arithmetic. -/
def U64MOD : Nat := 2 ^ 64

/-- Proto `api::Timite` — participant record `{id, nick}`. -/
structure Timite where
  id : Nat
  nick : String
deriving DecidableEq, Repr

/-- Proto `api::Session` — only the fields the space subsystem reads:
the opaque key and the bound participant id. -/
structure Session where
  key : String
  timite_id : Nat
deriving DecidableEq, Repr

/-- Proto `api::Message`. -/
structure Message where
  id : Nat
  sender_id : Nat
  content : String
deriving DecidableEq, Repr

/-- Proto `api::CallAbility` — ability invocation.  `call_ability_id` is an
`optional uint64` in the proto, hence `Option Nat`. -/
structure CallAbility where
  call_ability_id : Option Nat
  sender_id : Nat
  timite_id : Nat
  name : String
  payload : String
deriving DecidableEq, Repr

/-- Proto `api::CallAbilityOutcome`. -/
structure CallAbilityOutcome where
  call_ability_id : Nat
  payload : Option String
  error : Option String
deriving DecidableEq, Repr

/-- Proto `api::space_event::Data` — the oneof over event bodies. -/
inductive EventData where
  | eventNewMessage (m : Message)
  | eventCallAbility (c : CallAbility)
  | eventCallAbilityOutcome (o : CallAbilityOutcome)
  | eventTimiteConnected (t : Timite)
  | eventTimiteDisconnected (t : Timite)
deriving DecidableEq, Repr

/-- Proto `api::space_event::Metadata` restricted to the event id
(`emitted_at` is wall-clock time, irrelevant here). -/
structure EventMetadata where
  id : Nat
deriving DecidableEq, Repr

/-- Proto `api::SpaceEvent`. -/
structure SpaceEvent where
  metadata : EventMetadata
  data : EventData
deriving DecidableEq, Repr

/-- Source `tim_space.rs` lines 58-65: `event_new_message`. -/
def event_new_message (upd_id : Nat) (m : Message) : SpaceEvent :=
  ⟨⟨upd_id⟩, .eventNewMessage m⟩

/-- Source `tim_space.rs` lines 67-76: `event_call_ability_outcome`. -/
def event_call_ability_outcome (upd_id : Nat) (o : CallAbilityOutcome) : SpaceEvent :=
  ⟨⟨upd_id⟩, .eventCallAbilityOutcome o⟩

/-- Source `tim_space.rs` lines 78-85: `event_call_ability`. -/
def event_call_ability (upd_id : Nat) (c : CallAbility) : SpaceEvent :=
  ⟨⟨upd_id⟩, .eventCallAbility c⟩

/-- Source `tim_space.rs` lines 87-94: `event_timite_connected`. -/
def event_timite_connected (upd_id : Nat) (t : Timite) : SpaceEvent :=
  ⟨⟨upd_id⟩, .eventTimiteConnected t⟩

/-- Source `tim_space.rs` lines 96-105: `event_timite_disconnected`. -/
def event_timite_disconnected (upd_id : Nat) (t : Timite) : SpaceEvent :=
  ⟨⟨upd_id⟩, .eventTimiteDisconnected t⟩

/-- Source `tim_space.rs` lines 44-50: the in-memory `Subscriber` entry.
`chanOpen` abstracts the `mpsc::Sender`: `true` until the receiving end
is dropped. -/
structure Subscriber where
  receive_own_messages : Bool
  chanOpen : Bool
  session : Session
  timite : Timite
deriving DecidableEq, Repr

/-- State of `TimSpace` (lines 52-56) together with the `ev:` family of
the storage log it writes through: `upd_counter`, the `subscribers` map
(association list keyed by session key), and the persisted event log. -/
structure SpaceState where
  updCounter : Nat
  subscribers : List (String × Subscriber)
  eventLog : List SpaceEvent
deriving DecidableEq, Repr

/-- Modelled from the spec: `TimStorage::fetch_max_event_id` is missing
from the sources.  Per spec §4.1 the event counter is "initialized on
startup from storage as (maximum persisted event id)", and §4.5 gives the
`log` family a `prefix-max` read over big-endian id keys; the maximum of
an empty log is 0.  -/
def fetch_max_event_id (log : List SpaceEvent) : Nat :=
  log.foldl (fun acc e => max acc e.metadata.id) 0

/-- Modelled from the spec: `TimStorage::store_space_event` is missing
from the sources.  Per spec §4.5 space events go to the append-only `log`
family under key `ev:be(id)`; a point write appends the record.  (A
RocksDB `put` overwrites an existing equal key; for a write-once log the
append model is exact whenever the written id is fresh.) -/
def store_space_event (log : List SpaceEvent) (e : SpaceEvent) : List SpaceEvent :=
  log ++ [e]

/-- Source `tim_space.rs` lines 125-132: `TimSpace::new` — seed `upd_counter`
with the maximum persisted event id, empty subscriber map. -/
def timSpace_new (log : List SpaceEvent) : SpaceState :=
  ⟨fetch_max_event_id log, [], log⟩

/-- Result of a broadcast: who got the event, and which entries were
found disconnected (`is_closed` before send, or send error). -/
structure BroadcastResult where
  delivered : List (Subscriber × SpaceEvent)
  disconnected : List Subscriber
deriving DecidableEq, Repr

/-- Source `tim_space.rs` lines 280-298: `TimSpace::broadcast_event` over a
snapshot of the subscriber map.  A subscriber is skipped (not sent to,
and not examined for disconnection) when `skip_sender` is set, it does
not receive its own messages, and its session's timite id equals the
origin.  Delivery succeeds exactly when the channel is open. -/
def broadcast_event (subs : List (String × Subscriber)) (event : SpaceEvent)
    (skip_sender : Option Nat) : BroadcastResult :=
  match subs with
  | [] => ⟨[], []⟩
  | (_, sub) :: rest =>
    let r := broadcast_event rest event skip_sender
    let skip := match skip_sender with
      | some sender_id => !sub.receive_own_messages && sub.session.timite_id == sender_id
      | none => false
    if skip then r
    else if sub.chanOpen then ⟨(sub, event) :: r.delivered, r.disconnected⟩
    else ⟨r.delivered, sub :: r.disconnected⟩

/-- Models `HashMap::remove(&sub.session.key)`: drop the entry with the given
key and report whether one was present.  (Under the nodup-keys invariant
removing the first match is removal of the unique match.) -/
def remove_key (subs : List (String × Subscriber)) (k : String) :
    List (String × Subscriber) × Bool :=
  match subs with
  | [] => ([], false)
  | (k', v) :: rest =>
    if k' == k then (rest, true)
    else
      let r := remove_key rest k
      ((k', v) :: r.1, r.2)

/-- Loop body of `tim_space.rs` lines 263-275: remove each disconnected
subscriber by its session key; the first time a timite id is seen
(`seen.insert` inserts unconditionally and reports newness), if no
surviving entry carries that timite id, record the timite as removed. -/
def prune_loop (disconnected : List Subscriber) (subs : List (String × Subscriber))
    (seen : List Nat) (acc : List Timite) : List (String × Subscriber) × List Timite :=
  match disconnected with
  | [] => (subs, acc.reverse)
  | sub :: rest =>
    let r := remove_key subs sub.session.key
    if !r.2 then prune_loop rest subs seen acc
    else
      let isNew := !(seen.contains sub.timite.id)
      let seen' := sub.timite.id :: seen
      if isNew && !(r.1.any (fun e => e.2.timite.id == sub.timite.id)) then
        prune_loop rest r.1 seen' (sub.timite :: acc)
      else
        prune_loop rest r.1 seen' acc

/-- Source `tim_space.rs` lines 251-278: `TimSpace::prune_disconnected` —
returns the updated subscriber map and the timites whose last surviving
entry was just removed. -/
def prune_disconnected (subs : List (String × Subscriber)) (disconnected : List Subscriber) :
    List (String × Subscriber) × List Timite :=
  if disconnected.isEmpty then (subs, [])
  else prune_loop disconnected subs [] []

/-- Outcome of a publish operation: the new state, the deliveries made
(in order), and whether the operation returned `Ok`.  `storeOk = false`
models a storage error on `store_space_event`, which aborts the publish
after the counter has already been advanced. -/
structure PublishResult where
  state : SpaceState
  delivered : List (Subscriber × SpaceEvent)
  ok : Bool
deriving DecidableEq, Repr

/-- Source `tim_space.rs` lines 242-249: `TimSpace::publish_timite_disconnected`
— allocate, persist, broadcast with no origin, prune the newly found
disconnected entries but DISCARD the removed-timite list (`let _ =`): no
further disconnect events are published from this path. -/
def publish_timite_disconnected (storeOk : Bool) (st : SpaceState) (t : Timite) :
    PublishResult :=
  let upd_id := st.updCounter
  let counter' := (st.updCounter + 1) % U64MOD
  let event := event_timite_disconnected upd_id t
  if !storeOk then ⟨⟨counter', st.subscribers, st.eventLog⟩, [], false⟩
  else
    let log' := store_space_event st.eventLog event
    let br := broadcast_event st.subscribers event none
    let pr := prune_disconnected st.subscribers br.disconnected
    ⟨⟨counter', pr.1, log'⟩, br.delivered, true⟩

/-- Source `tim_space.rs` lines 300-305: `TimSpace::publish_disconnected_batch`
— publish one `TimiteDisconnected` per removed timite, propagating the
first error. -/
def publish_disconnected_batch (storeOk : Bool) (st : SpaceState) :
    List Timite → PublishResult
  | [] => ⟨st, [], true⟩
  | t :: rest =>
    let r := publish_timite_disconnected storeOk st t
    if !r.ok then ⟨r.state, r.delivered, false⟩
    else
      let r2 := publish_disconnected_batch storeOk r.state rest
      ⟨r2.state, r.delivered ++ r2.delivered, r2.ok⟩

/-- Common body of the public publish paths (`publish_message` lines
134-144, `publish_call_outcome` lines 181-193, `publish_call_ability`
lines 195-206): allocate the id (`fetch_add` returns the previous
value), persist, broadcast, prune, then publish the disconnect batch. -/
def publish_event_body (storeOk : Bool) (st : SpaceState) (event : Nat → SpaceEvent)
    (skip_sender : Option Nat) : PublishResult :=
  let upd_id := st.updCounter
  let counter' := (st.updCounter + 1) % U64MOD
  let ev := event upd_id
  if !storeOk then ⟨⟨counter', st.subscribers, st.eventLog⟩, [], false⟩
  else
    let log' := store_space_event st.eventLog ev
    let br := broadcast_event st.subscribers ev skip_sender
    let pr := prune_disconnected st.subscribers br.disconnected
    let st' : SpaceState := ⟨counter', pr.1, log'⟩
    let rb := publish_disconnected_batch storeOk st' pr.2
    ⟨rb.state, br.delivered ++ rb.delivered, rb.ok⟩

/-- Source `tim_space.rs` lines 134-144: `TimSpace::publish_message` — origin is
`message.sender_id`. -/
def publish_message (storeOk : Bool) (st : SpaceState) (m : Message) : PublishResult :=
  publish_event_body storeOk st (fun i => event_new_message i m) (some m.sender_id)

/-- Source `tim_space.rs` lines 181-193: `TimSpace::publish_call_outcome` —
origin is the submitting session's timite id. -/
def publish_call_outcome (storeOk : Bool) (st : SpaceState) (o : CallAbilityOutcome)
    (sender_timite_id : Nat) : PublishResult :=
  publish_event_body storeOk st (fun i => event_call_ability_outcome i o)
    (some sender_timite_id)

/-- Source `tim_space.rs` lines 195-206: `TimSpace::publish_call_ability` — NOTE
the broadcast is made with `skip_sender = None`: no origin filtering. -/
def publish_call_ability (storeOk : Bool) (st : SpaceState) (c : CallAbility) :
    PublishResult :=
  publish_event_body storeOk st (fun i => event_call_ability i c) none

/-- Source `tim_space.rs` lines 233-240: `TimSpace::publish_timite_connected` —
broadcast with no origin, then prune and publish the disconnect batch. -/
def publish_timite_connected (storeOk : Bool) (st : SpaceState) (t : Timite) :
    PublishResult :=
  publish_event_body storeOk st (fun i => event_timite_connected i t) none

/-- Models `HashMap::insert(session.key, subscriber)`: replace the entry with an
equal key in place, otherwise add the entry. -/
def insert_sub (subs : List (String × Subscriber)) (k : String) (v : Subscriber) :
    List (String × Subscriber) :=
  if subs.any (fun e => e.1 == k) then
    subs.map (fun e => if e.1 == k then (k, v) else e)
  else subs ++ [(k, v)]

/-- Source `tim_space.rs` lines 146-179: `TimSpace::subscribe` — under the write
lock: retain only entries with open channels, observe whether any
surviving entry already has the caller's timite id, insert the fresh
entry keyed by the session key; then, outside the lock, publish
`TimiteConnected` iff the caller was not already present. -/
def subscribe (storeOk : Bool) (st : SpaceState) (receive_own_messages : Bool)
    (session : Session) (timite : Timite) : PublishResult :=
  let surviving := st.subscribers.filter (fun e => e.2.chanOpen)
  let was_present := surviving.any (fun e => e.2.timite.id == timite.id)
  let newSub : Subscriber := ⟨receive_own_messages, true, session, timite⟩
  let subs' := insert_sub surviving session.key newSub
  let st' : SpaceState := ⟨st.updCounter, subs', st.eventLog⟩
  if was_present then ⟨st', [], true⟩
  else publish_timite_connected storeOk st' timite

/-- Source `tim_space.rs` lines 225-231: `TimSpace::subscriber_snapshot`. -/
def subscriber_snapshot (st : SpaceState) : List (String × Subscriber) :=
  st.subscribers

/-- Source `tim_space.rs` lines 212-223: `TimSpace::cleanup_disconnected` — the
periodic task: collect the closed entries from a snapshot, prune them,
publish the disconnect batch, return how many entries were collected. -/
def cleanup_disconnected (storeOk : Bool) (st : SpaceState) : PublishResult × Nat :=
  let closed := ((subscriber_snapshot st).map Prod.snd).filter (fun s => !s.chanOpen)
  let pr := prune_disconnected st.subscribers closed
  let r := publish_disconnected_batch storeOk ⟨st.updCounter, pr.1, st.eventLog⟩ pr.2
  (r, closed.length)

/-- A client dropping its stream receiver: the corresponding sender
reports closed from then on.  This is the only way `chanOpen` turns
false; it happens between server operations. -/
def close_channel (st : SpaceState) (k : String) : SpaceState :=
  ⟨st.updCounter,
   st.subscribers.map (fun e => if e.1 == k then (e.1, { e.2 with chanOpen := false }) else e),
   st.eventLog⟩

/-! ### Keyed log families (`msg:`, `acall:` keys)

The message and ability-call records live in the storage `log` family
under big-endian id keys.  They are embedded as association lists from
id to record with RocksDB point-write (replace-or-append) and point-get
semantics. -/

/-- RocksDB `put` on a keyed family: replace the value under an equal
key, otherwise append. -/
def put_log {α : Type} (log : List (Nat × α)) (k : Nat) (v : α) : List (Nat × α) :=
  if log.any (fun e => e.1 == k) then
    log.map (fun e => if e.1 == k then (k, v) else e)
  else log ++ [(k, v)]

/-- RocksDB point `get` on a keyed family. -/
def get_log {α : Type} (log : List (Nat × α)) (k : Nat) : Option α :=
  (log.find? (fun e => e.1 == k)).map Prod.snd

/-- Maximum key of a keyed log family (`prefix-max` read), 0 when empty. -/
def max_log_key {α : Type} (log : List (Nat × α)) : Nat :=
  log.foldl (fun acc e => max acc e.1) 0

/-! ### `TimMessage` (tim_message.rs) -/

/-- Modelled from the spec: `TimStorage::fetch_max_message_id` is missing
from the sources; spec §4.3 seeds the message counter "from storage's
maximum persisted message id" via the `log` family prefix-max. -/
def fetch_max_message_id (log : List (Nat × Message)) : Nat :=
  max_log_key log

/-- Modelled from the spec: `TimStorage::store_message` is missing from
the sources; spec §4.5/§6 persist a message under key `msg:be(id)`. -/
def store_message (log : List (Nat × Message)) (id : Nat) (m : Message) :
    List (Nat × Message) :=
  put_log log id m

/-- State of `TimMessage` (tim_message.rs lines 25-29) plus the `msg:`
log family it writes through. -/
structure MessageState where
  msgCounter : Nat
  messageLog : List (Nat × Message)
deriving DecidableEq, Repr

/-- Source `tim_message.rs` lines 32-39: `TimMessage::new` — seed `msg_counter`
with the maximum persisted message id. -/
def timMessage_new (log : List (Nat × Message)) : MessageState :=
  ⟨fetch_max_message_id log, log⟩

/-- Outcome of `process_message`: new message-service state, new space
state, the deliveries, the returned id, and success. -/
structure ProcessMessageResult where
  msgState : MessageState
  spaceState : SpaceState
  delivered : List (Subscriber × SpaceEvent)
  msgId : Nat
  ok : Bool
deriving DecidableEq, Repr

/-- Source `tim_message.rs` lines 41-55: `TimMessage::process_message` —
`msg_id = msg_counter.fetch_add(1) + 1` (wrapping), build the message
with `sender_id := session.timite_id`, persist it, publish `NewMessage`.
A storage failure (either store) aborts after the counter advance. -/
def process_message (storeOk : Bool) (ms : MessageState) (sp : SpaceState)
    (content : String) (session : Session) : ProcessMessageResult :=
  let msg_id := (ms.msgCounter + 1) % U64MOD
  let counter' := (ms.msgCounter + 1) % U64MOD
  let message : Message := ⟨msg_id, session.timite_id, content⟩
  if !storeOk then ⟨⟨counter', ms.messageLog⟩, sp, [], msg_id, false⟩
  else
    let log' := store_message ms.messageLog msg_id message
    let r := publish_message storeOk sp message
    ⟨⟨counter', log'⟩, r.state, r.delivered, msg_id, r.ok⟩

/-! ### `TimAbility` (tim_ability.rs) -/

/-- Modelled from the spec: `TimStorage::fetch_max_call_ability_id` is
missing from the sources; spec §4.2 seeds the call counter "from
storage's maximum persisted call_ability_id". -/
def fetch_max_call_ability_id (log : List (Nat × CallAbility)) : Nat :=
  max_log_key log

/-- Modelled from the spec: `TimStorage::store_call_ability` is missing
from the sources; spec §4.2/§6 persist a call under key `acall:be(id)`. -/
def store_call_ability (log : List (Nat × CallAbility)) (id : Nat) (c : CallAbility) :
    List (Nat × CallAbility) :=
  put_log log id c

/-- Modelled from the spec: `TimStorage::fetch_call_ability` is missing
from the sources; §4.2 "Look up the persisted call with id
outcome.call_ability_id" is a point-get on the `acall:` key. -/
def fetch_call_ability (log : List (Nat × CallAbility)) (id : Nat) : Option CallAbility :=
  get_log log id

/-- State of `TimAbility` (tim_ability.rs lines 25-29) plus the `acall:`
log family it writes through. -/
structure AbilityState where
  callCnt : Nat
  callLog : List (Nat × CallAbility)
deriving DecidableEq, Repr

/-- Source `tim_ability.rs` lines 32-39: `TimAbility::new` — seed the counter
with the maximum persisted call ability id. -/
def timAbility_new (log : List (Nat × CallAbility)) : AbilityState :=
  ⟨fetch_max_call_ability_id log, log⟩

/-- Outcome of `process_call_ability`. -/
structure ProcessCallResult where
  abilityState : AbilityState
  spaceState : SpaceState
  delivered : List (Subscriber × SpaceEvent)
  callId : Nat
  ok : Bool
deriving DecidableEq, Repr

/-- Source `tim_ability.rs` lines 45-60: `TimAbility::process_call_ability` —
allocate `id = cnt.fetch_add(1) + 1`, persist the INBOUND call as
received under that id, and only then clone it, overwrite
`call_ability_id := Some id` and `sender_id := session.timite_id`, and
publish the clone as a `CallAbility` event. -/
def process_call_ability (storeOk : Bool) (ab : AbilityState) (sp : SpaceState)
    (call : CallAbility) (session : Session) : ProcessCallResult :=
  let call_ability_id := (ab.callCnt + 1) % U64MOD
  let counter' := (ab.callCnt + 1) % U64MOD
  if !storeOk then ⟨⟨counter', ab.callLog⟩, sp, [], call_ability_id, false⟩
  else
    let log' := store_call_ability ab.callLog call_ability_id call
    let call_with_id : CallAbility :=
      { call with call_ability_id := some call_ability_id, sender_id := session.timite_id }
    let r := publish_call_ability storeOk sp call_with_id
    ⟨⟨counter', log'⟩, r.state, r.delivered, call_ability_id, r.ok⟩

/-! ### `TimTimite` ability declarations (tim_timite.rs) -/

/-- Proto `api::Ability` parameter (name + description). -/
structure AbilityParam where
  name : String
  description : String
deriving DecidableEq, Repr

/-- Proto `api::Capability` / `api::Ability` — a declared ability. -/
structure Capability where
  name : String
  description : String
  params : List AbilityParam
deriving DecidableEq, Repr

/-- Insert-or-replace a capability by name in a participant's stored
ability list. -/
def upsert_capability (l : List Capability) (c : Capability) : List Capability :=
  if l.any (fun x => x.name == c.name) then
    l.map (fun x => if x.name == c.name then c else x)
  else l ++ [c]

/-- Modelled from the spec: `TimStorage::store_timite_capability` is
missing from the sources.  Spec §4.5/§6 keep per-participant ability
declarations in the `data` family under `t:skill:<owner-id>`; the
function receives a single capability, so it is modelled as adding or
replacing that one capability (keyed by name) inside the owner's stored
set — consistent with the repository's own test
`tim_api_flow_abilities_list_declared_skills`, which declares two
abilities one call and finds both stored. -/
def store_timite_capability (store : List (Nat × List Capability)) (timite_id : Nat)
    (c : Capability) : List (Nat × List Capability) :=
  put_log store timite_id (upsert_capability ((get_log store timite_id).getD []) c)

/-- Source `tim_timite.rs` lines 39-48: `TimTimite::declare_capabilities` —
store each declared capability in turn; nothing is cleared first. -/
def declare_capabilities (store : List (Nat × List Capability)) (timite_id : Nat)
    (capabilities : List Capability) : List (Nat × List Capability) :=
  capabilities.foldl (fun s c => store_timite_capability s timite_id c) store

/-! ### Storage timeline (spec-modelled) and the API facade -/

/-- Modelled from the spec: `TimStorage::timeline` is missing from the
sources (`TimSpace::timeline`, tim_space.rs lines 208-210, delegates to
it directly).  Spec §4.5: "forward range-from-key with a size bound"
over the ascending-id event log. -/
def range_from (log : List SpaceEvent) (start : Nat) (size : Nat) : List SpaceEvent :=
  (log.filter (fun e => start ≤ e.metadata.id)).take size

/-- Modelled from the spec: `TimStorage::timeline`, per spec §4.1 op 3:
if `size == 0` return empty; if `offset == 0` read the maximum id `m`
present and range-read `[m-size+1 .. m]` (clamped at the log start);
otherwise range-read `size` events starting at id `offset`. -/
def storage_timeline (log : List SpaceEvent) (offset : Nat) (size : Nat) :
    List SpaceEvent :=
  if size = 0 then []
  else if offset = 0 then
    range_from log
      (fetch_max_event_id log + 1 - min size (fetch_max_event_id log)) size
  else range_from log offset size

/-- Source `tim_space.rs` lines 208-210: `TimSpace::timeline` — delegate to the
storage timeline over the persisted event log. -/
def timSpace_timeline (st : SpaceState) (offset : Nat) (size : Nat) : List SpaceEvent :=
  storage_timeline st.eventLog offset size

/-- Sample persisted event log with ids 1, 2, 3 (restart scenario). -/
def demoEventLog : List SpaceEvent :=
  [event_new_message 1 ⟨1, 1, "a"⟩, event_new_message 2 ⟨2, 1, "b"⟩,
   event_new_message 3 ⟨3, 1, "c"⟩]

/-- Sample persisted message log with ids 1, 2, 3 (restart scenario). -/
def demoMessageLog : List (Nat × Message) :=
  [(1, ⟨1, 1, "a"⟩), (2, ⟨2, 1, "b"⟩), (3, ⟨3, 1, "c"⟩)]

/-- Sample persisted ability-call log with ids 1, 2, 3 (restart
scenario). -/
def demoCallLog : List (Nat × CallAbility) :=
  [(1, ⟨some 1, 1, 2, "e", "x"⟩), (2, ⟨some 2, 1, 2, "e", "y"⟩),
   (3, ⟨some 3, 1, 2, "e", "z"⟩)]

/-- Source `tim_api.rs` error type (lines 43-70), restricted to the variants
the claims mention. -/
inductive TimApiError where
  | invalidArg (msg : String)
  | callAbilityMissing (id : Nat)
  | callAbilityTargetMismatch (call_ability_timite : Nat) (sender_timite : Nat)
  | storage
deriving DecidableEq, Repr

/-- Outcome of `TimApi::send_call_ability_outcome`: the (possibly
updated) space state, deliveries, and the RPC result. -/
structure OutcomeResult where
  spaceState : SpaceState
  delivered : List (Subscriber × SpaceEvent)
  result : Except TimApiError Unit
deriving Repr

/-- Source `tim_api.rs` lines 257-277: `TimApi::send_call_ability_outcome` —
require the outcome sub-message; look up the persisted call
(`TimAbility::find_call_ability`, tim_ability.rs lines 62-67, which
turns a missing record into `CallAbilityMissing`); reject a caller whose
session timite id differs from the call's target; otherwise publish the
outcome with origin = the session's timite id. -/
def send_call_ability_outcome (storeOk : Bool) (ab : AbilityState) (sp : SpaceState)
    (req_outcome : Option CallAbilityOutcome) (session : Session) : OutcomeResult :=
  match req_outcome with
  | none => ⟨sp, [], .error (.invalidArg "outcome payload required")⟩
  | some outcome =>
    match fetch_call_ability ab.callLog outcome.call_ability_id with
    | none => ⟨sp, [], .error (.callAbilityMissing outcome.call_ability_id)⟩
    | some call_ability =>
      if call_ability.timite_id ≠ session.timite_id then
        ⟨sp, [], .error (.callAbilityTargetMismatch call_ability.timite_id session.timite_id)⟩
      else
        let r := publish_call_outcome storeOk sp outcome session.timite_id
        ⟨r.state, r.delivered, if r.ok then .ok () else .error .storage⟩

/-- Outcome of `TimApi::send_message`. -/
structure SendMessageResult where
  msgState : MessageState
  spaceState : SpaceState
  delivered : List (Subscriber × SpaceEvent)
  result : Except TimApiError Unit
deriving Repr

/-- Source `tim_api.rs` lines 180-191: `TimApi::send_message` — no validation of
any kind on `req.content`; the request is handed straight to
`TimMessage::process_message` and a success returns `error: None`. -/
def api_send_message (storeOk : Bool) (ms : MessageState) (sp : SpaceState)
    (content : String) (session : Session) : SendMessageResult :=
  let r := process_message storeOk ms sp content session
  ⟨r.msgState, r.spaceState, r.delivered, if r.ok then .ok () else .error .storage⟩

/-- Source `tim_api.rs` lines 159-167: `TimApi::declare_abilities` — delegate to
the participant registry with the session's timite id. -/
def api_declare_abilities (store : List (Nat × List Capability)) (session : Session)
    (abilities : List Capability) : List (Nat × List Capability) :=
  declare_capabilities store session.timite_id abilities

/-! ### Derived notions used in the statements -/

/-- The skip test of `broadcast_event` (tim_space.rs lines 288-292) as a
standalone predicate. -/
def skip_filter (skip_sender : Option Nat) (s : Subscriber) : Bool :=
  match skip_sender with
  | some sender_id => !s.receive_own_messages && s.session.timite_id == sender_id
  | none => false

/-- The `TimiteDisconnected` events a disconnect batch appends to the
log, one per removed timite, ids allocated consecutively from `c`. -/
def disconnected_events (c : Nat) : List Timite → List SpaceEvent
  | [] => []
  | t :: ts => event_timite_disconnected c t :: disconnected_events ((c + 1) % U64MOD) ts

/-! ### Helper lemmas -/

theorem broadcast_event_delivered (subs : List (String × Subscriber)) (ev : SpaceEvent)
    (sk : Option Nat) :
    (broadcast_event subs ev sk).delivered =
      ((subs.map Prod.snd).filter (fun s => !(skip_filter sk s) && s.chanOpen)).map
        (fun s => (s, ev)) := by
  induction subs with
  | nil => rfl
  | cons hd tl ih =>
    obtain ⟨k, sub⟩ := hd
    simp only [broadcast_event, List.map_cons, List.filter_cons]
    cases sk with
    | none =>
      cases hop : sub.chanOpen <;> simp [skip_filter, hop, ih]
    | some sid =>
      cases hsk : (!sub.receive_own_messages && sub.session.timite_id == sid) with
      | true => simp [skip_filter, hsk, ih]
      | false =>
        cases hop : sub.chanOpen <;> simp [skip_filter, hsk, hop, ih]

theorem broadcast_event_disconnected (subs : List (String × Subscriber)) (ev : SpaceEvent)
    (sk : Option Nat) :
    (broadcast_event subs ev sk).disconnected =
      (subs.map Prod.snd).filter (fun s => !(skip_filter sk s) && !s.chanOpen) := by
  induction subs with
  | nil => rfl
  | cons hd tl ih =>
    obtain ⟨k, sub⟩ := hd
    simp only [broadcast_event, List.map_cons, List.filter_cons]
    cases sk with
    | none =>
      cases hop : sub.chanOpen <;> simp [skip_filter, hop, ih]
    | some sid =>
      cases hsk : (!sub.receive_own_messages && sub.session.timite_id == sid) with
      | true => simp [skip_filter, hsk, ih]
      | false =>
        cases hop : sub.chanOpen <;> simp [skip_filter, hsk, hop, ih]

theorem publish_timite_disconnected_eventLog (st : SpaceState) (t : Timite) :
    (publish_timite_disconnected true st t).state.eventLog =
      st.eventLog ++ [event_timite_disconnected st.updCounter t] := by
  rfl

theorem publish_timite_disconnected_ok (st : SpaceState) (t : Timite) :
    (publish_timite_disconnected true st t).ok = true := by
  rfl

theorem publish_timite_disconnected_counter (st : SpaceState) (t : Timite) :
    (publish_timite_disconnected true st t).state.updCounter =
      (st.updCounter + 1) % U64MOD := by
  rfl

theorem batch_ok (ts : List Timite) (st : SpaceState) :
    (publish_disconnected_batch true st ts).ok = true := by
  induction ts generalizing st with
  | nil => rfl
  | cons t ts ih =>
    simp only [publish_disconnected_batch, publish_timite_disconnected_ok, Bool.not_true]
    simp [ih]

theorem batch_eventLog (ts : List Timite) (st : SpaceState) :
    (publish_disconnected_batch true st ts).state.eventLog =
      st.eventLog ++ disconnected_events st.updCounter ts := by
  induction ts generalizing st with
  | nil => simp [publish_disconnected_batch, disconnected_events]
  | cons t ts ih =>
    simp only [publish_disconnected_batch, publish_timite_disconnected_ok, Bool.not_true]
    simp only [Bool.false_eq_true, if_false]
    rw [ih, publish_timite_disconnected_eventLog, publish_timite_disconnected_counter]
    simp [disconnected_events, List.append_assoc]

theorem publish_event_body_eventLog (st : SpaceState) (f : Nat → SpaceEvent)
    (sk : Option Nat) :
    (publish_event_body true st f sk).state.eventLog =
      st.eventLog ++ [f st.updCounter] ++
        disconnected_events ((st.updCounter + 1) % U64MOD)
          (prune_disconnected st.subscribers
            (broadcast_event st.subscribers (f st.updCounter) sk).disconnected).2 := by
  simp only [publish_event_body, Bool.not_true]
  simp only [Bool.false_eq_true, if_false]
  rw [batch_eventLog]
  simp [store_space_event, List.append_assoc]

theorem publish_event_body_ok (st : SpaceState) (f : Nat → SpaceEvent) (sk : Option Nat) :
    (publish_event_body true st f sk).ok = true := by
  simp only [publish_event_body, Bool.not_true]
  simp only [Bool.false_eq_true, if_false]
  exact batch_ok _ _

theorem get_log_put_log {α : Type} (log : List (Nat × α)) (k : Nat) (v : α) :
    get_log (put_log log k v) k = some v := by
  induction log with
  | nil => simp [put_log, get_log]
  | cons hd tl ih =>
    obtain ⟨k', v'⟩ := hd
    by_cases hk : k' = k
    · subst hk
      simp [put_log, get_log, List.find?]
    · have hbeq : (k' == k) = false := by simp [hk]
      by_cases ht : tl.any (fun e => e.1 == k)
      · have h1 : put_log ((k', v') :: tl) k v =
            (k', v') :: tl.map (fun e => if e.1 == k then (k, v) else e) := by
          simp [put_log, hbeq, ht, hk]
        have h2 : put_log tl k v = tl.map (fun e => if e.1 == k then (k, v) else e) := by
          simp [put_log, ht]
        rw [h1, get_log, List.find?]
        rw [hbeq]
        rw [← h2]
        exact ih
      · have h1 : put_log ((k', v') :: tl) k v = (k', v') :: (tl ++ [(k, v)]) := by
          simp [put_log, hbeq, ht]
        have h2 : put_log tl k v = tl ++ [(k, v)] := by
          simp [put_log, ht]
        rw [h1, get_log, List.find?]
        rw [hbeq]
        rw [← h2]
        exact ih

theorem batch_delivered_shape (ts : List Timite) (st : SpaceState) :
    ∀ p ∈ (publish_disconnected_batch true st ts).delivered,
      ∃ c t, p.2 = event_timite_disconnected c t := by
  induction ts generalizing st with
  | nil => intro p hp; simp [publish_disconnected_batch] at hp
  | cons t ts ih =>
    intro p hp
    simp only [publish_disconnected_batch, publish_timite_disconnected_ok, Bool.not_true,
      Bool.false_eq_true, if_false] at hp
    rcases List.mem_append.mp hp with h | h
    · have hd : (publish_timite_disconnected true st t).delivered =
          (broadcast_event st.subscribers (event_timite_disconnected st.updCounter t)
            none).delivered := by
        rfl
      rw [hd, broadcast_event_delivered] at h
      rcases List.mem_map.mp h with ⟨s, _, hs⟩
      exact ⟨st.updCounter, t, by rw [← hs]⟩
    · exact ih _ p h

theorem batch_delivered_mem_log (ts : List Timite) (st : SpaceState) :
    ∀ p ∈ (publish_disconnected_batch true st ts).delivered,
      p.2 ∈ (publish_disconnected_batch true st ts).state.eventLog := by
  induction ts generalizing st with
  | nil => intro p hp; simp [publish_disconnected_batch] at hp
  | cons t ts ih =>
    intro p hp
    simp only [publish_disconnected_batch, publish_timite_disconnected_ok, Bool.not_true,
      Bool.false_eq_true, if_false] at hp ⊢
    rcases List.mem_append.mp hp with h | h
    · have hd : (publish_timite_disconnected true st t).delivered =
          (broadcast_event st.subscribers (event_timite_disconnected st.updCounter t)
            none).delivered := by
        rfl
      rw [hd, broadcast_event_delivered] at h
      rcases List.mem_map.mp h with ⟨s, _, hs⟩
      have hev : p.2 = event_timite_disconnected st.updCounter t := by rw [← hs]
      rw [batch_eventLog, publish_timite_disconnected_eventLog, hev]
      simp
    · have := ih _ p h
      simpa using this

theorem publish_event_body_delivered (st : SpaceState) (f : Nat → SpaceEvent)
    (sk : Option Nat) :
    (publish_event_body true st f sk).delivered =
      (broadcast_event st.subscribers (f st.updCounter) sk).delivered ++
        (publish_disconnected_batch true
          ⟨(st.updCounter + 1) % U64MOD,
           (prune_disconnected st.subscribers
             (broadcast_event st.subscribers (f st.updCounter) sk).disconnected).1,
           store_space_event st.eventLog (f st.updCounter)⟩
          (prune_disconnected st.subscribers
            (broadcast_event st.subscribers (f st.updCounter) sk).disconnected).2).delivered := by
  rfl

theorem publish_event_body_state_eq_batch (st : SpaceState) (f : Nat → SpaceEvent)
    (sk : Option Nat) :
    (publish_event_body true st f sk).state =
      (publish_disconnected_batch true
        ⟨(st.updCounter + 1) % U64MOD,
         (prune_disconnected st.subscribers
           (broadcast_event st.subscribers (f st.updCounter) sk).disconnected).1,
         store_space_event st.eventLog (f st.updCounter)⟩
        (prune_disconnected st.subscribers
          (broadcast_event st.subscribers (f st.updCounter) sk).disconnected).2).state := by
  rfl

/-! ### The claims -/

/-- Claim C2: a publish persists the event before any delivery attempt.
If the storage write fails the publish returns an error, no subscriber
receives anything, and the log is unchanged; on success the freshly
stamped event is in the persisted log, and every event handed to any
subscriber during the operation (the published event and any synthetic
disconnect events) is present in the persisted log. -/
theorem publish_message_durable_before_delivery (st : SpaceState) (m : Message) :
    ((publish_message false st m).ok = false ∧
     (publish_message false st m).delivered = [] ∧
     (publish_message false st m).state.eventLog = st.eventLog) ∧
    (event_new_message st.updCounter m ∈ (publish_message true st m).state.eventLog ∧
     ∀ p ∈ (publish_message true st m).delivered,
       p.2 ∈ (publish_message true st m).state.eventLog) := by
  refine ⟨⟨rfl, rfl, rfl⟩, ?_, ?_⟩
  · rw [show publish_message true st m =
        publish_event_body true st (fun i => event_new_message i m) (some m.sender_id)
        from rfl, publish_event_body_eventLog]
    simp
  · intro p hp
    rw [show publish_message true st m =
        publish_event_body true st (fun i => event_new_message i m) (some m.sender_id)
        from rfl] at hp ⊢
    rw [publish_event_body_delivered] at hp
    rcases List.mem_append.mp hp with h | h
    · rw [broadcast_event_delivered] at h
      rcases List.mem_map.mp h with ⟨s, _, hs⟩
      have hev : p.2 = event_new_message st.updCounter m := by rw [← hs]
      rw [publish_event_body_eventLog, hev]
      simp
    · have hm := batch_delivered_mem_log _ _ p h
      rw [show (publish_event_body true st (fun i => event_new_message i m)
          (some m.sender_id)).state.eventLog =
        (publish_disconnected_batch true
          ⟨(st.updCounter + 1) % U64MOD,
           (prune_disconnected st.subscribers
             (broadcast_event st.subscribers (event_new_message st.updCounter m)
               (some m.sender_id)).disconnected).1,
           store_space_event st.eventLog (event_new_message st.updCounter m)⟩
          (prune_disconnected st.subscribers
            (broadcast_event st.subscribers (event_new_message st.updCounter m)
              (some m.sender_id)).disconnected).2).state.eventLog from rfl]
      exact hm

/-- Witness for C2 at a concrete state: one open subscriber with
`receive_own=true`; on failure nothing is delivered, on success the
delivered pair's event is in the persisted log. -/
theorem publish_message_durable_before_delivery_witness :
    (publish_message false ⟨0, [("k", ⟨true, true, ⟨"k", 9⟩, ⟨9, "a"⟩⟩)], []⟩
        ⟨1, 5, "hi"⟩).delivered = [] ∧
    ((⟨true, true, ⟨"k", 9⟩, ⟨9, "a"⟩⟩, event_new_message 0 ⟨1, 5, "hi"⟩) :
        Subscriber × SpaceEvent).2 ∈
      (publish_message true ⟨0, [("k", ⟨true, true, ⟨"k", 9⟩, ⟨9, "a"⟩⟩)], []⟩
        ⟨1, 5, "hi"⟩).state.eventLog := by
  refine ⟨?_, ?_⟩
  · exact (publish_message_durable_before_delivery
      ⟨0, [("k", ⟨true, true, ⟨"k", 9⟩, ⟨9, "a"⟩⟩)], []⟩ ⟨1, 5, "hi"⟩).1.2.1
  · exact (publish_message_durable_before_delivery
      ⟨0, [("k", ⟨true, true, ⟨"k", 9⟩, ⟨9, "a"⟩⟩)], []⟩ ⟨1, 5, "hi"⟩).2.2
      (⟨true, true, ⟨"k", 9⟩, ⟨9, "a"⟩⟩, event_new_message 0 ⟨1, 5, "hi"⟩) (by decide)

/-- Claim C5: submitting an ability outcome succeeds iff a call with id
`outcome.call_ability_id` is persisted and its `timite_id` equals the
submitting session's participant id; a missing call fails with
`CallAbilityMissing`, a target mismatch fails with `TargetMismatch`, and
in either failure case the space is untouched and nothing is
delivered. -/
theorem send_call_ability_outcome_guard (ab : AbilityState) (sp : SpaceState)
    (outcome : CallAbilityOutcome) (session : Session) :
    ((send_call_ability_outcome true ab sp (some outcome) session).result = .ok () ↔
      ∃ call, fetch_call_ability ab.callLog outcome.call_ability_id = some call ∧
        call.timite_id = session.timite_id) ∧
    (fetch_call_ability ab.callLog outcome.call_ability_id = none →
      (send_call_ability_outcome true ab sp (some outcome) session).result =
        .error (.callAbilityMissing outcome.call_ability_id) ∧
      (send_call_ability_outcome true ab sp (some outcome) session).spaceState = sp ∧
      (send_call_ability_outcome true ab sp (some outcome) session).delivered = []) ∧
    (∀ call, fetch_call_ability ab.callLog outcome.call_ability_id = some call →
      call.timite_id ≠ session.timite_id →
      (send_call_ability_outcome true ab sp (some outcome) session).result =
        .error (.callAbilityTargetMismatch call.timite_id session.timite_id) ∧
      (send_call_ability_outcome true ab sp (some outcome) session).spaceState = sp ∧
      (send_call_ability_outcome true ab sp (some outcome) session).delivered = []) := by
  cases hfetch : fetch_call_ability ab.callLog outcome.call_ability_id with
  | none =>
    refine ⟨?_, ?_, ?_⟩
    · constructor
      · intro h
        simp only [send_call_ability_outcome, hfetch] at h
        exact absurd h (by simp)
      · rintro ⟨call, hc, _⟩
        exact absurd hc (by simp)
    · intro _
      simp [send_call_ability_outcome, hfetch]
    · intro call hc
      exact absurd hc (by simp)
  | some call =>
    by_cases hmatch : call.timite_id = session.timite_id
    · refine ⟨?_, ?_, ?_⟩
      · constructor
        · intro _
          exact ⟨call, rfl, hmatch⟩
        · intro _
          simp only [send_call_ability_outcome, hfetch]
          rw [if_neg (by simp [hmatch])]
          have hok : (publish_call_outcome true sp outcome session.timite_id).ok = true :=
            publish_event_body_ok sp (fun i => event_call_ability_outcome i outcome)
              (some session.timite_id)
          simp [hok]
      · intro h
        exact absurd h (by simp)
      · intro call' hc' hne
        have hceq : call' = call := by
          injection hc' with h
          exact h.symm
        subst hceq
        exact absurd hmatch hne
    · refine ⟨?_, ?_, ?_⟩
      · constructor
        · intro h
          simp only [send_call_ability_outcome, hfetch] at h
          rw [if_pos hmatch] at h
          exact absurd h (by simp)
        · rintro ⟨call', hc', heq⟩
          have hceq : call' = call := by
            injection hc' with h
            exact h.symm
          subst hceq
          exact absurd heq hmatch
      · intro h
        exact absurd h (by simp)
      · intro call' hc' _
        have hceq : call' = call := by
          injection hc' with h
          exact h.symm
        subst hceq
        simp only [send_call_ability_outcome, hfetch]
        rw [if_pos hmatch]
        exact ⟨rfl, rfl, rfl⟩

/-- Witness for C5 at concrete inputs: a matching call succeeds, a
missing call fails `CallAbilityMissing`, a mismatched target fails
`TargetMismatch`. -/
theorem send_call_ability_outcome_guard_witness :
    (send_call_ability_outcome true ⟨1, [(1, ⟨none, 2, 5, "echo", "x"⟩)]⟩ ⟨0, [], []⟩
        (some ⟨1, some "done", none⟩) ⟨"s", 5⟩).result = .ok () ∧
    (send_call_ability_outcome true ⟨1, []⟩ ⟨0, [], []⟩
        (some ⟨1, some "done", none⟩) ⟨"s", 5⟩).result =
      .error (.callAbilityMissing 1) ∧
    (send_call_ability_outcome true ⟨1, [(1, ⟨none, 2, 5, "echo", "x"⟩)]⟩ ⟨0, [], []⟩
        (some ⟨1, some "done", none⟩) ⟨"s", 6⟩).result =
      .error (.callAbilityTargetMismatch 5 6) :=
  ⟨(send_call_ability_outcome_guard ⟨1, [(1, ⟨none, 2, 5, "echo", "x"⟩)]⟩ ⟨0, [], []⟩
      ⟨1, some "done", none⟩ ⟨"s", 5⟩).1.mpr ⟨⟨none, 2, 5, "echo", "x"⟩, by decide, rfl⟩,
   ((send_call_ability_outcome_guard ⟨1, []⟩ ⟨0, [], []⟩
      ⟨1, some "done", none⟩ ⟨"s", 5⟩).2.1 (by decide)).1,
   ((send_call_ability_outcome_guard ⟨1, [(1, ⟨none, 2, 5, "echo", "x"⟩)]⟩ ⟨0, [], []⟩
      ⟨1, some "done", none⟩ ⟨"s", 6⟩).2.2 ⟨none, 2, 5, "echo", "x"⟩ (by decide)
      (by decide)).1⟩

/-- Counterexample to claim C6 as stated: the record persisted under the
freshly allocated id 4 is the inbound call exactly as received — its
`call_ability_id` is still the client-supplied `some 99` (not `some 4`)
and its `sender_id` is still the client-supplied 7 (not the session's
participant id 5).  The overwrites are applied only to the copy carried
by the published event. -/
theorem process_call_ability_raw_record_counterexample :
    (process_call_ability true ⟨3, []⟩ ⟨0, [], []⟩
        ⟨some 99, 7, 9, "echo", "hi"⟩ ⟨"s", 5⟩).callId = 4 ∧
    fetch_call_ability
      (process_call_ability true ⟨3, []⟩ ⟨0, [], []⟩
        ⟨some 99, 7, 9, "echo", "hi"⟩ ⟨"s", 5⟩).abilityState.callLog 4 =
      some ⟨some 99, 7, 9, "echo", "hi"⟩ ∧
    (some 99 : Option Nat) ≠ some 4 ∧ (7 : Nat) ≠ 5 := by
  refine ⟨rfl, by decide, by decide, by decide⟩

/-- Claim C6 amended: `process_call_ability` persists the inbound call
UNCHANGED under the newly allocated id (client-supplied
`call_ability_id` and `sender_id` preserved); the copy with
`call_ability_id := allocated id` and `sender_id := session participant`
is only published as the `CallAbility` event; `timite_id` is kept as the
client gave it in both. -/
theorem process_call_ability_amended (ab : AbilityState) (sp : SpaceState)
    (call : CallAbility) (session : Session) :
    (process_call_ability true ab sp call session).callId = (ab.callCnt + 1) % U64MOD ∧
    fetch_call_ability
      (process_call_ability true ab sp call session).abilityState.callLog
        ((ab.callCnt + 1) % U64MOD) = some call ∧
    event_call_ability sp.updCounter
        { call with call_ability_id := some ((ab.callCnt + 1) % U64MOD),
                    sender_id := session.timite_id } ∈
      (process_call_ability true ab sp call session).spaceState.eventLog ∧
    ({ call with call_ability_id := some ((ab.callCnt + 1) % U64MOD),
                 sender_id := session.timite_id } : CallAbility).timite_id =
      call.timite_id := by
  refine ⟨rfl, ?_, ?_, rfl⟩
  · exact get_log_put_log ab.callLog ((ab.callCnt + 1) % U64MOD) call
  · rw [show (process_call_ability true ab sp call session).spaceState =
      (publish_event_body true sp
        (fun i => event_call_ability i
          { call with call_ability_id := some ((ab.callCnt + 1) % U64MOD),
                      sender_id := session.timite_id }) none).state from rfl]
    rw [publish_event_body_eventLog]
    simp

/-- Counterexample to claim C8 as stated: a `SendMessage` with empty
content is NOT rejected — it succeeds, the empty message is persisted
under id 1, and a `NewMessage` event for it is published and delivered
to a live subscriber. -/
theorem send_message_accepts_empty_counterexample :
    (api_send_message true (timMessage_new [])
        ⟨0, [("k", ⟨true, true, ⟨"k", 9⟩, ⟨9, "a"⟩⟩)], []⟩ "" ⟨"s", 5⟩).result = .ok () ∧
    get_log
      (api_send_message true (timMessage_new [])
        ⟨0, [("k", ⟨true, true, ⟨"k", 9⟩, ⟨9, "a"⟩⟩)], []⟩ "" ⟨"s", 5⟩).msgState.messageLog
      1 = some ⟨1, 5, ""⟩ ∧
    (api_send_message true (timMessage_new [])
        ⟨0, [("k", ⟨true, true, ⟨"k", 9⟩, ⟨9, "a"⟩⟩)], []⟩ "" ⟨"s", 5⟩).spaceState.eventLog =
      [event_new_message 0 ⟨1, 5, ""⟩] ∧
    (api_send_message true (timMessage_new [])
        ⟨0, [("k", ⟨true, true, ⟨"k", 9⟩, ⟨9, "a"⟩⟩)], []⟩ "" ⟨"s", 5⟩).delivered =
      [(⟨true, true, ⟨"k", 9⟩, ⟨9, "a"⟩⟩, event_new_message 0 ⟨1, 5, ""⟩)] := by
  refine ⟨rfl, by decide, by decide, by decide⟩

/-- Claim C8 amended: the API performs no content validation at all —
every `SendMessage` request, including one whose content is empty or
whitespace-only, succeeds, persists the message (with the session's
participant id as sender), and publishes a `NewMessage` event for it. -/
theorem send_message_no_validation (ms : MessageState) (sp : SpaceState)
    (content : String) (session : Session) :
    (api_send_message true ms sp content session).result = .ok () ∧
    get_log (api_send_message true ms sp content session).msgState.messageLog
        ((ms.msgCounter + 1) % U64MOD) =
      some ⟨(ms.msgCounter + 1) % U64MOD, session.timite_id, content⟩ ∧
    event_new_message sp.updCounter
        ⟨(ms.msgCounter + 1) % U64MOD, session.timite_id, content⟩ ∈
      (api_send_message true ms sp content session).spaceState.eventLog := by
  refine ⟨?_, ?_, ?_⟩
  · have hok : (publish_message true sp
        ⟨(ms.msgCounter + 1) % U64MOD, session.timite_id, content⟩).ok = true :=
      publish_event_body_ok sp
        (fun i => event_new_message i ⟨(ms.msgCounter + 1) % U64MOD, session.timite_id, content⟩)
        (some session.timite_id)
    simp [api_send_message, process_message, hok]
  · exact get_log_put_log ms.messageLog ((ms.msgCounter + 1) % U64MOD)
      ⟨(ms.msgCounter + 1) % U64MOD, session.timite_id, content⟩
  · rw [show (api_send_message true ms sp content session).spaceState =
      (publish_event_body true sp
        (fun i => event_new_message i
          ⟨(ms.msgCounter + 1) % U64MOD, session.timite_id, content⟩)
        (some session.timite_id)).state from rfl]
    rw [publish_event_body_eventLog]
    simp

theorem mem_upsert_of_name_ne (l : List Capability) (c a : Capability)
    (ha : a ∈ l) (hne : a.name ≠ c.name) : a ∈ upsert_capability l c := by
  unfold upsert_capability
  split
  · have hmem := List.mem_map_of_mem (fun x => if x.name == c.name then c else x) ha
    simpa [hne] using hmem
  · exact List.mem_append_left _ ha

theorem name_mem_upsert (l : List Capability) (c : Capability) :
    c.name ∈ (upsert_capability l c).map (fun x => x.name) := by
  unfold upsert_capability
  split
  case isTrue h =>
    rcases List.any_eq_true.mp h with ⟨x, hx, hxc⟩
    refine List.mem_map.mpr ⟨c, List.mem_map.mpr ⟨x, hx, ?_⟩, rfl⟩
    simp [hxc]
  case isFalse h =>
    simp

theorem names_mem_upsert_superset (l : List Capability) (c : Capability) (n : String)
    (hn : n ∈ l.map (fun x => x.name)) :
    n ∈ (upsert_capability l c).map (fun x => x.name) := by
  unfold upsert_capability
  split
  · rcases List.mem_map.mp hn with ⟨a, ha, hname⟩
    by_cases hac : (a.name == c.name) = true
    · refine List.mem_map.mpr ⟨c, List.mem_map.mpr ⟨a, ha, by simp [hac]⟩, ?_⟩
      rw [← hname]
      exact (eq_of_beq hac).symm
    · refine List.mem_map.mpr ⟨a, List.mem_map.mpr ⟨a, ha, by simp [hac]⟩, hname⟩
  · rcases List.mem_map.mp hn with ⟨a, ha, hname⟩
    exact List.mem_map.mpr ⟨a, List.mem_append_left _ ha, hname⟩

theorem names_mem_foldl_upsert (caps : List Capability) (l : List Capability) (n : String)
    (hn : n ∈ l.map (fun x => x.name)) :
    n ∈ (caps.foldl upsert_capability l).map (fun x => x.name) := by
  induction caps generalizing l with
  | nil => exact hn
  | cons c cs ih => exact ih _ (names_mem_upsert_superset l c n hn)

theorem declared_name_mem_foldl (caps : List Capability) (l : List Capability)
    (c : Capability) (hc : c ∈ caps) :
    c.name ∈ (caps.foldl upsert_capability l).map (fun x => x.name) := by
  induction caps generalizing l with
  | nil => cases hc
  | cons d ds ih =>
    rcases List.mem_cons.mp hc with rfl | hmem
    · exact names_mem_foldl_upsert ds (upsert_capability l c) c.name (name_mem_upsert l c)
    · exact ih _ hmem

theorem mem_foldl_upsert_of_name_notin (caps : List Capability) (l : List Capability)
    (a : Capability) (ha : a ∈ l) (hn : a.name ∉ caps.map (fun x => x.name)) :
    a ∈ caps.foldl upsert_capability l := by
  induction caps generalizing l with
  | nil => exact ha
  | cons c cs ih =>
    have hne : a.name ≠ c.name := by
      intro h
      exact hn (by simp [h])
    have hn' : a.name ∉ cs.map (fun x => x.name) := by
      intro h
      exact hn (by simp [h])
    exact ih _ (mem_upsert_of_name_ne l c a ha hne) hn'

theorem declare_capabilities_get (store : List (Nat × List Capability)) (tid : Nat)
    (caps : List Capability) :
    (get_log (declare_capabilities store tid caps) tid).getD [] =
      caps.foldl upsert_capability ((get_log store tid).getD []) := by
  induction caps generalizing store with
  | nil => rfl
  | cons c cs ih =>
    show (get_log (declare_capabilities (store_timite_capability store tid c) tid cs)
        tid).getD [] = _
    rw [ih, List.foldl_cons]
    congr 1
    unfold store_timite_capability
    rw [get_log_put_log]
    rfl

/-- Counterexample to claim C9 as stated: declaring the empty ability
list after having declared `echo` leaves `echo` stored — the stored set
does not equal the (empty) declared set; nothing is ever cleared. -/
theorem declare_abilities_empty_keeps_old_counterexample :
    get_log (api_declare_abilities
        (api_declare_abilities [] ⟨"s", 1⟩ [⟨"echo", "d", []⟩]) ⟨"s", 1⟩ []) 1 =
      some [⟨"echo", "d", []⟩] ∧
    some [(⟨"echo", "d", []⟩ : Capability)] ≠ some ([] : List Capability) := by
  exact ⟨rfl, by decide⟩

/-- Claim C9 amended: `declare_abilities(id, S)` does not replace the
stored set: it upserts each ability of S by name into the participant's
stored ability set, one storage write per ability.  Afterwards the
stored set is the fold of those upserts over the previous set: abilities
from earlier declarations whose names do not occur in S remain stored,
every name declared in S is present, and declaring an empty S leaves the
store untouched. -/
theorem declare_abilities_upserts (store : List (Nat × List Capability))
    (session : Session) (caps : List Capability) :
    ((get_log (api_declare_abilities store session caps) session.timite_id).getD [] =
      caps.foldl upsert_capability ((get_log store session.timite_id).getD [])) ∧
    (api_declare_abilities store session [] = store) ∧
    (∀ a ∈ (get_log store session.timite_id).getD [],
      a.name ∉ caps.map (fun x => x.name) →
      a ∈ (get_log (api_declare_abilities store session caps) session.timite_id).getD []) ∧
    (∀ c ∈ caps,
      c.name ∈
        ((get_log (api_declare_abilities store session caps) session.timite_id).getD
          []).map (fun x => x.name)) := by
  refine ⟨declare_capabilities_get store session.timite_id caps, rfl, ?_, ?_⟩
  · intro a ha hn
    rw [show api_declare_abilities store session caps =
      declare_capabilities store session.timite_id caps from rfl]
    rw [declare_capabilities_get]
    exact mem_foldl_upsert_of_name_notin caps _ a ha hn
  · intro c hc
    rw [show api_declare_abilities store session caps =
      declare_capabilities store session.timite_id caps from rfl]
    rw [declare_capabilities_get]
    exact declared_name_mem_foldl caps _ c hc

/-- Witness for the amended C9 at a concrete store: participant 1 has
`echo` stored, declares `[ping]`; `echo` (name not re-declared) is still
stored and `ping` is now present. -/
theorem declare_abilities_upserts_witness :
    (⟨"echo", "d", []⟩ : Capability) ∈
      (get_log (api_declare_abilities [(1, [⟨"echo", "d", []⟩])] ⟨"s", 1⟩
        [⟨"ping", "e", []⟩]) 1).getD [] ∧
    "ping" ∈
      ((get_log (api_declare_abilities [(1, [⟨"echo", "d", []⟩])] ⟨"s", 1⟩
        [⟨"ping", "e", []⟩]) 1).getD []).map (fun x => x.name) := by
  refine ⟨?_, ?_⟩
  · exact (declare_abilities_upserts [(1, [⟨"echo", "d", []⟩])] ⟨"s", 1⟩
      [⟨"ping", "e", []⟩]).2.2.1 ⟨"echo", "d", []⟩ (by decide) (by decide)
  · exact (declare_abilities_upserts [(1, [⟨"echo", "d", []⟩])] ⟨"s", 1⟩
      [⟨"ping", "e", []⟩]).2.2.2 ⟨"ping", "e", []⟩ (by decide)

/-- Counterexample to claim C3 as stated: `publish_call_ability`
broadcasts with no origin (`skip_sender = None`), so a subscriber with
`receive_own=false` whose participant id equals the `CallAbility`
event's origin (`sender_id = 7`) still receives the event. -/
theorem call_ability_no_self_filter_counterexample :
    (publish_call_ability true
        ⟨5, [("k", ⟨false, true, ⟨"k", 7⟩, ⟨7, "p"⟩⟩)], []⟩
        ⟨none, 7, 9, "echo", "hi"⟩).delivered =
      [(⟨false, true, ⟨"k", 7⟩, ⟨7, "p"⟩⟩,
        event_call_ability 5 ⟨none, 7, 9, "echo", "hi"⟩)] ∧
    (⟨false, true, ⟨"k", 7⟩, ⟨7, "p"⟩⟩ : Subscriber).receive_own_messages = false ∧
    (⟨none, 7, 9, "echo", "hi"⟩ : CallAbility).sender_id = 7 ∧
    (⟨false, true, ⟨"k", 7⟩, ⟨7, "p"⟩⟩ : Subscriber).session.timite_id = 7 := by
  refine ⟨by decide, rfl, rfl, rfl⟩

/-- Claim C3 amended: the origin self-filter holds for `NewMessage` and
`CallAbilityOutcome` broadcasts (their origin is the sender's participant
id), and a subscriber with `receive_own=true` is never filtered; but a
`CallAbility` event is broadcast with NO origin, so it is delivered to
every open subscriber, including the caller, even with
`receive_own=false`. -/
theorem self_filter_amended :
    (∀ (subs : List (String × Subscriber)) (ev : SpaceEvent) (sid : Nat),
      (broadcast_event subs ev (some sid)).delivered =
        ((subs.map Prod.snd).filter
          (fun s => (s.receive_own_messages || !(s.session.timite_id == sid)) &&
            s.chanOpen)).map (fun s => (s, ev))) ∧
    (∀ (subs : List (String × Subscriber)) (ev : SpaceEvent),
      (broadcast_event subs ev none).delivered =
        ((subs.map Prod.snd).filter (fun s => s.chanOpen)).map (fun s => (s, ev))) ∧
    (∀ (st : SpaceState) (m : Message) (s : Subscriber),
      s.receive_own_messages = false → s.session.timite_id = m.sender_id →
      (s, event_new_message st.updCounter m) ∉ (publish_message true st m).delivered) ∧
    (∀ (st : SpaceState) (o : CallAbilityOutcome) (sid : Nat) (s : Subscriber),
      s.receive_own_messages = false → s.session.timite_id = sid →
      (s, event_call_ability_outcome st.updCounter o) ∉
        (publish_call_outcome true st o sid).delivered) ∧
    (∀ (st : SpaceState) (c : CallAbility) (s : Subscriber),
      s ∈ st.subscribers.map Prod.snd → s.chanOpen = true →
      (s, event_call_ability st.updCounter c) ∈
        (publish_call_ability true st c).delivered) := by
  have hsome : ∀ (subs : List (String × Subscriber)) (ev : SpaceEvent) (sid : Nat),
      (broadcast_event subs ev (some sid)).delivered =
        ((subs.map Prod.snd).filter
          (fun s => (s.receive_own_messages || !(s.session.timite_id == sid)) &&
            s.chanOpen)).map (fun s => (s, ev)) := by
    intro subs ev sid
    rw [broadcast_event_delivered]
    congr 1
    apply List.filter_congr
    intro s _
    simp [skip_filter, Bool.not_and]
  have hnone : ∀ (subs : List (String × Subscriber)) (ev : SpaceEvent),
      (broadcast_event subs ev none).delivered =
        ((subs.map Prod.snd).filter (fun s => s.chanOpen)).map (fun s => (s, ev)) := by
    intro subs ev
    rw [broadcast_event_delivered]
    exact rfl
  refine ⟨hsome, hnone, ?_, ?_, ?_⟩
  · intro st m s hro hsid hmem
    rw [show publish_message true st m =
      publish_event_body true st (fun i => event_new_message i m) (some m.sender_id)
      from rfl, publish_event_body_delivered] at hmem
    rcases List.mem_append.mp hmem with h | h
    · rw [hsome] at h
      rcases List.mem_map.mp h with ⟨s', hs', heq⟩
      have hss : s' = s := congrArg Prod.fst heq
      subst hss
      have hpred := (List.mem_filter.mp hs').2
      rw [hro, hsid] at hpred
      simp at hpred
    · rcases batch_delivered_shape _ _ _ h with ⟨c, t, hev⟩
      simp [event_new_message, event_timite_disconnected] at hev
  · intro st o sid s hro hsid hmem
    rw [show publish_call_outcome true st o sid =
      publish_event_body true st (fun i => event_call_ability_outcome i o) (some sid)
      from rfl, publish_event_body_delivered] at hmem
    rcases List.mem_append.mp hmem with h | h
    · rw [hsome] at h
      rcases List.mem_map.mp h with ⟨s', hs', heq⟩
      have hss : s' = s := congrArg Prod.fst heq
      subst hss
      have hpred := (List.mem_filter.mp hs').2
      rw [hro, hsid] at hpred
      simp at hpred
    · rcases batch_delivered_shape _ _ _ h with ⟨c, t, hev⟩
      simp [event_call_ability_outcome, event_timite_disconnected] at hev
  · intro st c s hmem hopen
    rw [show publish_call_ability true st c =
      publish_event_body true st (fun i => event_call_ability i c) none from rfl,
      publish_event_body_delivered]
    apply List.mem_append_left
    rw [hnone]
    exact List.mem_map.mpr ⟨s, List.mem_filter.mpr ⟨hmem, hopen⟩, rfl⟩

/-- Witness for the amended C3 at a concrete state: the message sender
with `receive_own=false` does not get its own `NewMessage` event, while
the caller with `receive_own=false` does get its own `CallAbility`
event. -/
theorem self_filter_amended_witness :
    ((⟨false, true, ⟨"k", 7⟩, ⟨7, "p"⟩⟩ : Subscriber), event_new_message 5 ⟨1, 7, "hi"⟩) ∉
      (publish_message true ⟨5, [("k", ⟨false, true, ⟨"k", 7⟩, ⟨7, "p"⟩⟩)], []⟩
        ⟨1, 7, "hi"⟩).delivered ∧
    ((⟨false, true, ⟨"k", 7⟩, ⟨7, "p"⟩⟩ : Subscriber),
        event_call_ability 5 ⟨none, 7, 9, "echo", "hi"⟩) ∈
      (publish_call_ability true ⟨5, [("k", ⟨false, true, ⟨"k", 7⟩, ⟨7, "p"⟩⟩)], []⟩
        ⟨none, 7, 9, "echo", "hi"⟩).delivered := by
  refine ⟨?_, ?_⟩
  · exact self_filter_amended.2.2.1
      ⟨5, [("k", ⟨false, true, ⟨"k", 7⟩, ⟨7, "p"⟩⟩)], []⟩ ⟨1, 7, "hi"⟩
      ⟨false, true, ⟨"k", 7⟩, ⟨7, "p"⟩⟩ rfl rfl
  · exact self_filter_amended.2.2.2.2
      ⟨5, [("k", ⟨false, true, ⟨"k", 7⟩, ⟨7, "p"⟩⟩)], []⟩ ⟨none, 7, 9, "echo", "hi"⟩
      ⟨false, true, ⟨"k", 7⟩, ⟨7, "p"⟩⟩ (by decide) rfl

/-- Claim C1 (code-bug evidence): `TimSpace::publish_*` assigns
`upd_id = upd_counter.fetch_add(1)` — the PRE-increment value — while the
counter is seeded with the maximum persisted event id, so the first
event published after a restart gets `metadata.id` EQUAL to the
persisted maximum (3 here, overwriting the log entry `ev:3`), not
strictly greater.  Consecutive publishes do assign consecutive ids
(3 then 4).  The sibling allocators add 1 after `fetch_add`
(tim_message.rs line 46, tim_ability.rs line 50), so the first message
id and the first call id after restart are `max + 1 = 4 > 3` as the
claim states. -/
theorem event_id_restart_collision :
    fetch_max_event_id demoEventLog = 3 ∧
    (timSpace_new demoEventLog).updCounter = 3 ∧
    (publish_message true (timSpace_new demoEventLog) ⟨4, 1, "d"⟩).state.eventLog =
      demoEventLog ++ [event_new_message 3 ⟨4, 1, "d"⟩] ∧
    ¬(3 : Nat) > 3 ∧
    (publish_message true
        (publish_message true (timSpace_new demoEventLog) ⟨4, 1, "d"⟩).state
        ⟨5, 1, "e"⟩).state.eventLog =
      demoEventLog ++ [event_new_message 3 ⟨4, 1, "d"⟩, event_new_message 4 ⟨5, 1, "e"⟩] ∧
    fetch_max_message_id demoMessageLog = 3 ∧
    (process_message true (timMessage_new demoMessageLog) ⟨0, [], []⟩ "d"
        ⟨"s", 1⟩).msgId = 4 ∧
    (4 : Nat) > 3 ∧
    fetch_max_call_ability_id demoCallLog = 3 ∧
    (process_call_ability true (timAbility_new demoCallLog) ⟨0, [], []⟩
        ⟨none, 1, 2, "e", "w"⟩ ⟨"s", 1⟩).callId = 4 := by
  refine ⟨by decide, by decide, by decide, by decide, by decide, by decide, by decide,
    by decide, by decide, by decide⟩

theorem foldl_max_of_seq (l : List SpaceEvent) (s a : Nat)
    (h : l.map (fun e => e.metadata.id) = List.range' s l.length) :
    l.foldl (fun acc e => max acc e.metadata.id) a =
      if l.length = 0 then a else max a (s + l.length - 1) := by
  induction l generalizing s a with
  | nil => simp
  | cons e t ih =>
    simp only [List.length_cons, List.map_cons] at h
    rw [List.range'_succ s t.length 1] at h
    injection h with h1 h2
    rw [List.foldl_cons]
    rw [ih (s + 1) (max a e.metadata.id) h2, h1]
    simp only [List.length_cons]
    cases ht : t.length with
    | zero => simp
    | succ k =>
      rw [if_neg (Nat.succ_ne_zero k), if_neg (Nat.succ_ne_zero (k + 1))]
      have e1 : s + 1 + (k + 1) - 1 = s + (k + 1) := by omega
      have e2 : s + (k + 1 + 1) - 1 = s + (k + 1) := by omega
      rw [e1, e2, Nat.max_assoc, Nat.max_eq_right (Nat.le_add_right s (k + 1))]

theorem fetch_max_event_id_of_seq (l : List SpaceEvent)
    (h : l.map (fun e => e.metadata.id) = List.range' 1 l.length) :
    fetch_max_event_id l = l.length := by
  unfold fetch_max_event_id
  rw [foldl_max_of_seq l 1 0 h]
  cases hl : l.length with
  | zero => simp
  | succ k =>
    rw [if_neg (Nat.succ_ne_zero k), Nat.max_eq_right (Nat.zero_le _)]
    omega

theorem filter_ge_eq_drop (l : List SpaceEvent) (s k : Nat)
    (h : l.map (fun e => e.metadata.id) = List.range' s l.length) :
    l.filter (fun e => k ≤ e.metadata.id) = l.drop (k - s) := by
  induction l generalizing s with
  | nil => simp
  | cons e t ih =>
    simp only [List.length_cons, List.map_cons] at h
    rw [List.range'_succ s t.length 1] at h
    injection h with h1 h2
    by_cases hk : k ≤ e.metadata.id
    · have hds : decide (k ≤ e.metadata.id) = true := decide_eq_true hk
      rw [h1] at hk
      simp only [List.filter_cons, hds, if_true]
      rw [ih (s + 1) h2]
      have h0 : k - s = 0 := by omega
      have h0' : k - (s + 1) = 0 := by omega
      rw [h0, h0']
      simp
    · have hds : decide (k ≤ e.metadata.id) = false := decide_eq_false hk
      rw [h1] at hk
      simp only [List.filter_cons, hds, Bool.false_eq_true, if_false]
      rw [ih (s + 1) h2]
      have hks : k - s = (k - (s + 1)) + 1 := by omega
      rw [hks, List.drop_succ_cons]

theorem range_from_pairwise (l : List SpaceEvent) (start size : Nat)
    (h : l.map (fun e => e.metadata.id) = List.range' 1 l.length) :
    (range_from l start size).Pairwise (fun a b => a.metadata.id < b.metadata.id) := by
  have hpl : l.Pairwise (fun a b => a.metadata.id < b.metadata.id) := by
    have hr := List.pairwise_lt_range' 1 l.length
    rw [← h] at hr
    exact List.pairwise_map.mp hr
  have hsub : List.Sublist (range_from l start size) l :=
    (List.take_sublist _ _).trans (List.filter_sublist l)
  exact hpl.sublist hsub

/-- Claim C7: over a gap-free persisted log (ids 1..n, which spec
invariant 1 guarantees), `timeline(offset, size)` always returns events
in strictly ascending `metadata.id`; with `size = 0` it returns the
empty list; with `offset = 0` it returns the tail window of the last
up-to-`size` persisted events; with `offset > 0` it returns up to
`size` events whose ids are at least `offset`. -/
theorem timeline_claim (st : SpaceState) (offset size : Nat)
    (h : st.eventLog.map (fun e => e.metadata.id) = List.range' 1 st.eventLog.length) :
    (timSpace_timeline st offset size).Pairwise
      (fun a b => a.metadata.id < b.metadata.id) ∧
    (size = 0 → timSpace_timeline st offset size = []) ∧
    (offset = 0 → timSpace_timeline st offset size =
      st.eventLog.drop (st.eventLog.length - min size st.eventLog.length)) ∧
    (0 < offset →
      (timSpace_timeline st offset size).length ≤ size ∧
      ∀ e ∈ timSpace_timeline st offset size, offset ≤ e.metadata.id) := by
  refine ⟨?_, ?_, ?_, ?_⟩
  · unfold timSpace_timeline storage_timeline
    by_cases hs : size = 0
    · simp [hs]
    · rw [if_neg hs]
      by_cases ho : offset = 0
      · rw [if_pos ho]
        exact range_from_pairwise _ _ _ h
      · rw [if_neg ho]
        exact range_from_pairwise _ _ _ h
  · intro hs
    unfold timSpace_timeline storage_timeline
    rw [if_pos hs]
  · intro ho
    unfold timSpace_timeline storage_timeline
    by_cases hs : size = 0
    · rw [if_pos hs, hs]
      rw [Nat.min_comm]
      simp [List.drop_length]
    · rw [if_neg hs, if_pos ho]
      rw [fetch_max_event_id_of_seq _ h]
      unfold range_from
      rw [filter_ge_eq_drop _ 1 _ h]
      have hmn : min size st.eventLog.length ≤ st.eventLog.length :=
        Nat.min_le_right _ _
      have e1 : st.eventLog.length + 1 - min size st.eventLog.length - 1 =
          st.eventLog.length - min size st.eventLog.length := by omega
      rw [e1]
      apply List.take_of_length_le
      rw [List.length_drop]
      have hms : min size st.eventLog.length ≤ size := Nat.min_le_left _ _
      omega
  · intro ho
    unfold timSpace_timeline storage_timeline
    by_cases hs : size = 0
    · rw [if_pos hs]
      exact ⟨by simp, by simp⟩
    · rw [if_neg hs, if_neg (Nat.pos_iff_ne_zero.mp ho)]
      constructor
      · unfold range_from
        rw [List.length_take]
        exact Nat.min_le_left _ _
      · intro e he
        unfold range_from at he
        have hmem := List.mem_of_mem_take he
        have hf := List.mem_filter.mp hmem
        exact of_decide_eq_true hf.2

/-- Witness for C7 at a concrete three-event log: the whole log for
`(0, 10)`, the last two for `(0, 2)`, and the suffix from id 2 for
`(2, 10)`. -/
theorem timeline_claim_witness :
    timSpace_timeline (timSpace_new demoEventLog) 0 2 =
      List.drop (demoEventLog.length - min 2 demoEventLog.length) demoEventLog ∧
    (timSpace_timeline (timSpace_new demoEventLog) 2 10).length ≤ 10 ∧
    timSpace_timeline (timSpace_new demoEventLog) 7 0 = [] := by
  refine ⟨?_, ?_, ?_⟩
  · exact (timeline_claim (timSpace_new demoEventLog) 0 2 (by decide)).2.2.1 rfl
  · exact ((timeline_claim (timSpace_new demoEventLog) 2 10 (by decide)).2.2.2
      (by decide)).1
  · exact (timeline_claim (timSpace_new demoEventLog) 7 0 (by decide)).2.1 rfl

/-- The `HashMap` structural invariant on the association-list
embedding: at most one entry per session key. -/
def nodupKeys (subs : List (String × Subscriber)) : Prop :=
  (subs.map Prod.fst).Nodup

/-- One server-side transition of the space state: any public
`TimSpace` operation, or a client dropping its receiver. -/
inductive SpaceStep : SpaceState → SpaceState → Prop where
  | subscribeStep (st : SpaceState) (storeOk ro : Bool) (session : Session)
      (timite : Timite) :
      SpaceStep st (subscribe storeOk st ro session timite).state
  | publishMessageStep (st : SpaceState) (storeOk : Bool) (m : Message) :
      SpaceStep st (publish_message storeOk st m).state
  | publishCallAbilityStep (st : SpaceState) (storeOk : Bool) (c : CallAbility) :
      SpaceStep st (publish_call_ability storeOk st c).state
  | publishCallOutcomeStep (st : SpaceState) (storeOk : Bool) (o : CallAbilityOutcome)
      (sid : Nat) :
      SpaceStep st (publish_call_outcome storeOk st o sid).state
  | cleanupStep (st : SpaceState) (storeOk : Bool) :
      SpaceStep st (cleanup_disconnected storeOk st).1.state
  | closeChanStep (st : SpaceState) (k : String) :
      SpaceStep st (close_channel st k)

/-- States reachable from a fresh `TimSpace::new` by server operations
and client disconnects. -/
inductive ReachableSpace : SpaceState → Prop where
  | init (log : List SpaceEvent) : ReachableSpace (timSpace_new log)
  | step {st st' : SpaceState} : ReachableSpace st → SpaceStep st st' →
      ReachableSpace st'

theorem nodupKeys_of_sublist {l1 l2 : List (String × Subscriber)}
    (h : List.Sublist l1 l2) (h2 : nodupKeys l2) : nodupKeys l1 :=
  h2.sublist (h.map Prod.fst)

theorem remove_key_sublist (subs : List (String × Subscriber)) (k : String) :
    List.Sublist (remove_key subs k).1 subs := by
  induction subs with
  | nil => exact List.Sublist.refl _
  | cons hd tl ih =>
    obtain ⟨k', v⟩ := hd
    simp only [remove_key]
    by_cases h : (k' == k) = true
    · rw [if_pos h]
      exact List.sublist_cons_self _ _
    · rw [if_neg h]
      exact List.Sublist.cons₂ _ ih

theorem prune_loop_subs_sublist (disc : List Subscriber) :
    ∀ (subs : List (String × Subscriber)) (seen : List Nat) (acc : List Timite),
      List.Sublist (prune_loop disc subs seen acc).1 subs := by
  induction disc with
  | nil => intro subs seen acc; exact List.Sublist.refl _
  | cons sub rest ih =>
    intro subs seen acc
    simp only [prune_loop]
    by_cases hp : (remove_key subs sub.session.key).2 = true
    · simp only [hp, Bool.not_true, Bool.false_eq_true, if_false]
      by_cases hn : (!(seen.contains sub.timite.id) &&
          !((remove_key subs sub.session.key).1.any
            (fun e => e.2.timite.id == sub.timite.id))) = true
      · rw [if_pos hn]
        exact (ih _ _ _).trans (remove_key_sublist subs sub.session.key)
      · rw [if_neg hn]
        exact (ih _ _ _).trans (remove_key_sublist subs sub.session.key)
    · have hp' : (remove_key subs sub.session.key).2 = false := by
        cases h : (remove_key subs sub.session.key).2
        · rfl
        · exact absurd h hp
      simp only [hp', Bool.not_false, if_true]
      exact ih _ _ _

theorem prune_disconnected_subs_sublist (subs : List (String × Subscriber))
    (disc : List Subscriber) :
    List.Sublist (prune_disconnected subs disc).1 subs := by
  unfold prune_disconnected
  split
  · exact List.Sublist.refl _
  · exact prune_loop_subs_sublist disc subs [] []

theorem publish_timite_disconnected_subscribers_sublist (storeOk : Bool)
    (st : SpaceState) (t : Timite) :
    List.Sublist (publish_timite_disconnected storeOk st t).state.subscribers
      st.subscribers := by
  cases storeOk with
  | false => exact List.Sublist.refl _
  | true => exact prune_disconnected_subs_sublist _ _

theorem batch_subscribers_sublist (ts : List Timite) (storeOk : Bool) :
    ∀ st : SpaceState,
      List.Sublist (publish_disconnected_batch storeOk st ts).state.subscribers
        st.subscribers := by
  induction ts with
  | nil => intro st; exact List.Sublist.refl _
  | cons t rest ih =>
    intro st
    simp only [publish_disconnected_batch]
    by_cases hok : (publish_timite_disconnected storeOk st t).ok = true
    · simp only [hok, Bool.not_true, Bool.false_eq_true, if_false]
      exact (ih _).trans (publish_timite_disconnected_subscribers_sublist storeOk st t)
    · have hok' : (publish_timite_disconnected storeOk st t).ok = false := by
        cases h : (publish_timite_disconnected storeOk st t).ok
        · rfl
        · exact absurd h hok
      simp only [hok', Bool.not_false, if_true]
      exact publish_timite_disconnected_subscribers_sublist storeOk st t

theorem publish_event_body_subscribers_sublist (storeOk : Bool) (st : SpaceState)
    (f : Nat → SpaceEvent) (sk : Option Nat) :
    List.Sublist (publish_event_body storeOk st f sk).state.subscribers
      st.subscribers := by
  cases storeOk with
  | false => exact List.Sublist.refl _
  | true =>
    exact (batch_subscribers_sublist _ _ _).trans
      (prune_disconnected_subs_sublist _ _)

theorem insert_sub_nodupKeys (l : List (String × Subscriber)) (k : String)
    (v : Subscriber) (h : nodupKeys l) : nodupKeys (insert_sub l k v) := by
  unfold insert_sub
  unfold nodupKeys at h ⊢
  split
  case isTrue hany =>
    have hkeys : (l.map (fun e => if e.1 == k then (k, v) else e)).map Prod.fst =
        l.map Prod.fst := by
      rw [List.map_map]
      apply List.map_congr_left
      intro e _
      by_cases hek : (e.1 == k) = true
      · simp [Function.comp, hek, (eq_of_beq hek).symm]
      · simp [Function.comp, hek]
    rw [hkeys]
    exact h
  case isFalse hany =>
    rw [List.map_append, List.nodup_append]
    refine ⟨h, List.nodup_singleton _, ?_⟩
    intro a ha hb
    simp only [List.map_cons, List.map_nil, List.mem_singleton] at hb
    subst hb
    rcases List.mem_map.mp ha with ⟨e, he, hek⟩
    exact hany (List.any_eq_true.mpr ⟨e, he, by rw [hek]; exact beq_self_eq_true _⟩)

theorem close_channel_keys (st : SpaceState) (k : String) :
    (close_channel st k).subscribers.map Prod.fst =
      st.subscribers.map Prod.fst := by
  unfold close_channel
  rw [List.map_map]
  apply List.map_congr_left
  intro e _
  by_cases hek : (e.1 == k) = true
  · simp [Function.comp, hek]
  · simp [Function.comp, hek]

theorem subscribe_nodupKeys (storeOk : Bool) (st : SpaceState) (ro : Bool)
    (session : Session) (timite : Timite) (h : nodupKeys st.subscribers) :
    nodupKeys (subscribe storeOk st ro session timite).state.subscribers := by
  have hfilter : nodupKeys (st.subscribers.filter (fun e => e.2.chanOpen)) :=
    nodupKeys_of_sublist (List.filter_sublist _) h
  have hins : nodupKeys (insert_sub (st.subscribers.filter (fun e => e.2.chanOpen))
      session.key ⟨ro, true, session, timite⟩) :=
    insert_sub_nodupKeys _ _ _ hfilter
  unfold subscribe
  by_cases hw : ((st.subscribers.filter (fun e => e.2.chanOpen)).any
      (fun e => e.2.timite.id == timite.id)) = true
  · rw [if_pos hw]
    exact hins
  · rw [if_neg hw]
    exact nodupKeys_of_sublist
      (publish_event_body_subscribers_sublist storeOk _ _ _) hins

theorem space_step_nodupKeys {st st' : SpaceState} (hstep : SpaceStep st st')
    (h : nodupKeys st.subscribers) : nodupKeys st'.subscribers := by
  cases hstep with
  | subscribeStep storeOk ro session timite =>
    exact subscribe_nodupKeys storeOk st ro session timite h
  | publishMessageStep storeOk m =>
    exact nodupKeys_of_sublist (publish_event_body_subscribers_sublist _ _ _ _) h
  | publishCallAbilityStep storeOk c =>
    exact nodupKeys_of_sublist (publish_event_body_subscribers_sublist _ _ _ _) h
  | publishCallOutcomeStep storeOk o sid =>
    exact nodupKeys_of_sublist (publish_event_body_subscribers_sublist _ _ _ _) h
  | cleanupStep storeOk =>
    exact nodupKeys_of_sublist
      ((batch_subscribers_sublist _ _ _).trans (prune_disconnected_subs_sublist _ _)) h
  | closeChanStep k =>
    unfold nodupKeys
    rw [close_channel_keys]
    exact h

theorem mem_insert_sub_self (l : List (String × Subscriber)) (k : String)
    (v : Subscriber) : (k, v) ∈ insert_sub l k v := by
  unfold insert_sub
  split
  case isTrue hany =>
    rcases List.any_eq_true.mp hany with ⟨e, he, hek⟩
    exact List.mem_map.mpr ⟨e, he, by simp [hek]⟩
  case isFalse hany =>
    exact List.mem_append_right _ (List.mem_singleton.mpr rfl)

/-- Claim C10: in every reachable state the subscriber registry holds at
most one entry per session key; subscribing again with a session key
whose live entry (same participant) is already registered replaces that
entry in place — the caller is seen as present, so no
`TimiteConnected` or `TimiteDisconnected` is emitted, nothing is
delivered, and the old entry simply disappears from the registry
without being treated as a delivery failure. -/
theorem subscriber_registry_replacement :
    (∀ st : SpaceState, ReachableSpace st → nodupKeys st.subscribers) ∧
    (∀ (st : SpaceState) (ro : Bool) (session : Session) (timite : Timite)
      (old : Subscriber),
      (session.key, old) ∈ st.subscribers → old.chanOpen = true →
      old.timite.id = timite.id →
      (subscribe true st ro session timite).state.subscribers =
        insert_sub (st.subscribers.filter (fun e => e.2.chanOpen)) session.key
          ⟨ro, true, session, timite⟩ ∧
      (session.key, (⟨ro, true, session, timite⟩ : Subscriber)) ∈
        (subscribe true st ro session timite).state.subscribers ∧
      (subscribe true st ro session timite).state.eventLog = st.eventLog ∧
      (subscribe true st ro session timite).delivered = [] ∧
      (subscribe true st ro session timite).ok = true) := by
  constructor
  · intro st hreach
    induction hreach with
    | init log => exact List.nodup_nil
    | step _ hstep ih => exact space_step_nodupKeys hstep ih
  · intro st ro session timite old hmem hopen htid
    have hsurv : (session.key, old) ∈ st.subscribers.filter (fun e => e.2.chanOpen) :=
      List.mem_filter.mpr ⟨hmem, hopen⟩
    have hpres : ((st.subscribers.filter (fun e => e.2.chanOpen)).any
        (fun e => e.2.timite.id == timite.id)) = true :=
      List.any_eq_true.mpr ⟨(session.key, old), hsurv,
        by rw [show ((session.key, old) : String × Subscriber).2.timite.id =
            timite.id from htid]; exact beq_self_eq_true _⟩
    unfold subscribe
    rw [if_pos hpres]
    exact ⟨rfl, mem_insert_sub_self _ _ _, rfl, rfl, rfl⟩

/-- Witness for C10: subscribe on a fresh space (reachable by one step);
re-subscribing with the same session key replaces the entry, emits no
event (the log is unchanged), and delivers nothing. -/
theorem subscriber_registry_replacement_witness :
    nodupKeys (subscribe true (timSpace_new []) true ⟨"k", 7⟩ ⟨7, "p"⟩).state.subscribers ∧
    (subscribe true (subscribe true (timSpace_new []) true ⟨"k", 7⟩ ⟨7, "p"⟩).state
        false ⟨"k", 7⟩ ⟨7, "p"⟩).state.eventLog =
      (subscribe true (timSpace_new []) true ⟨"k", 7⟩ ⟨7, "p"⟩).state.eventLog ∧
    (subscribe true (subscribe true (timSpace_new []) true ⟨"k", 7⟩ ⟨7, "p"⟩).state
        false ⟨"k", 7⟩ ⟨7, "p"⟩).delivered = [] := by
  refine ⟨?_, ?_, ?_⟩
  · exact subscriber_registry_replacement.1
      (subscribe true (timSpace_new []) true ⟨"k", 7⟩ ⟨7, "p"⟩).state
      (ReachableSpace.step (ReachableSpace.init [])
        (SpaceStep.subscribeStep (timSpace_new []) true true ⟨"k", 7⟩ ⟨7, "p"⟩))
  · exact (subscriber_registry_replacement.2
      (subscribe true (timSpace_new []) true ⟨"k", 7⟩ ⟨7, "p"⟩).state
      false ⟨"k", 7⟩ ⟨7, "p"⟩ ⟨true, true, ⟨"k", 7⟩, ⟨7, "p"⟩⟩
      (by decide) rfl rfl).2.2.1
  · exact (subscriber_registry_replacement.2
      (subscribe true (timSpace_new []) true ⟨"k", 7⟩ ⟨7, "p"⟩).state
      false ⟨"k", 7⟩ ⟨7, "p"⟩ ⟨true, true, ⟨"k", 7⟩, ⟨7, "p"⟩⟩
      (by decide) rfl rfl).2.2.2.1

theorem mem_insert_sub {l : List (String × Subscriber)} {k : String} {v : Subscriber}
    {e : String × Subscriber} (he : e ∈ insert_sub l k v) : e.2 = v ∨ e ∈ l := by
  unfold insert_sub at he
  split at he
  · rcases List.mem_map.mp he with ⟨a, ha, hae⟩
    by_cases hak : (a.1 == k) = true
    · left
      rw [← hae]
      simp [hak]
    · right
      rw [← hae]
      simpa [hak] using ha
  · rcases List.mem_append.mp he with h | h
    · right
      exact h
    · left
      rw [List.mem_singleton.mp h]

theorem broadcast_disconnected_nil_of_open (subs : List (String × Subscriber))
    (ev : SpaceEvent) (sk : Option Nat) (h : ∀ e ∈ subs, e.2.chanOpen = true) :
    (broadcast_event subs ev sk).disconnected = [] := by
  rw [broadcast_event_disconnected]
  apply List.filter_eq_nil_iff.mpr
  intro s hs
  rcases List.mem_map.mp hs with ⟨e, he, hse⟩
  have hop := h e he
  rw [hse] at hop
  simp [hop]

theorem prune_loop_spec (disc : List Subscriber) :
    ∀ (subs : List (String × Subscriber)) (seen : List Nat) (acc : List Timite),
      (acc.map Timite.id).Nodup →
      (∀ t ∈ acc, t.id ∈ seen) →
      (∀ t ∈ acc, ∀ e ∈ subs, e.2.timite.id ≠ t.id) →
      (((prune_loop disc subs seen acc).2.map Timite.id).Nodup ∧
       (∀ t ∈ (prune_loop disc subs seen acc).2,
         t ∈ acc ∨ ∃ s ∈ disc, s.timite = t) ∧
       (∀ t ∈ (prune_loop disc subs seen acc).2,
         ∀ e ∈ (prune_loop disc subs seen acc).1, e.2.timite.id ≠ t.id)) := by
  induction disc with
  | nil =>
    intro subs seen acc h1 h2 h3
    refine ⟨?_, ?_, ?_⟩
    · simp only [prune_loop, List.map_reverse]
      exact List.nodup_reverse.mpr h1
    · intro t ht
      simp only [prune_loop] at ht
      exact Or.inl (List.mem_reverse.mp ht)
    · intro t ht e he
      simp only [prune_loop] at ht he
      exact h3 t (List.mem_reverse.mp ht) e he
  | cons sub rest ih =>
    intro subs seen acc h1 h2 h3
    simp only [prune_loop]
    by_cases hp : (remove_key subs sub.session.key).2 = true
    case neg =>
      have hp' : (remove_key subs sub.session.key).2 = false := by
        cases h : (remove_key subs sub.session.key).2
        · rfl
        · exact absurd h hp
      simp only [hp', Bool.not_false, if_true]
      obtain ⟨c1, c2, c3⟩ := ih subs seen acc h1 h2 h3
      refine ⟨c1, ?_, c3⟩
      intro t ht
      rcases c2 t ht with h | ⟨s, hs, hst⟩
      · exact Or.inl h
      · exact Or.inr ⟨s, List.mem_cons_of_mem _ hs, hst⟩
    case pos =>
      simp only [hp, Bool.not_true, Bool.false_eq_true, if_false]
      have hsub1 : List.Sublist (remove_key subs sub.session.key).1 subs :=
        remove_key_sublist _ _
      by_cases hn : (!(seen.contains sub.timite.id) &&
          !((remove_key subs sub.session.key).1.any
            (fun e => e.2.timite.id == sub.timite.id))) = true
      case pos =>
        rw [if_pos hn]
        have hnew : seen.contains sub.timite.id = false := by
          have := Bool.and_elim_left hn
          cases h : seen.contains sub.timite.id
          · rfl
          · rw [h] at this
            simp at this
        have hany : ((remove_key subs sub.session.key).1.any
            (fun e => e.2.timite.id == sub.timite.id)) = false := by
          have := Bool.and_elim_right hn
          cases h : ((remove_key subs sub.session.key).1.any
              (fun e => e.2.timite.id == sub.timite.id))
          · rfl
          · rw [h] at this
            simp at this
        have h1' : ((sub.timite :: acc).map Timite.id).Nodup := by
          simp only [List.map_cons]
          refine List.nodup_cons.mpr ⟨?_, h1⟩
          intro hmem
          rcases List.mem_map.mp hmem with ⟨t, ht, hid⟩
          have hts : t.id ∈ seen := h2 t ht
          rw [hid] at hts
          have hc : seen.contains sub.timite.id = true := List.elem_iff.mpr hts
          rw [hc] at hnew
          exact absurd hnew (by simp)
        have h2' : ∀ t ∈ sub.timite :: acc, t.id ∈ sub.timite.id :: seen := by
          intro t ht
          rcases List.mem_cons.mp ht with rfl | ht'
          · exact List.mem_cons_self _ _
          · exact List.mem_cons_of_mem _ (h2 t ht')
        have h3' : ∀ t ∈ sub.timite :: acc,
            ∀ e ∈ (remove_key subs sub.session.key).1, e.2.timite.id ≠ t.id := by
          intro t ht e he
          rcases List.mem_cons.mp ht with rfl | ht'
          · intro heq
            have hfa := List.any_eq_false.mp hany e he
            exact hfa (by rw [heq]; exact beq_self_eq_true _)
          · exact h3 t ht' e (hsub1.subset he)
        obtain ⟨c1, c2, c3⟩ := ih (remove_key subs sub.session.key).1
          (sub.timite.id :: seen) (sub.timite :: acc) h1' h2' h3'
        refine ⟨c1, ?_, c3⟩
        intro t ht
        rcases c2 t ht with hacc | ⟨s, hs, hst⟩
        · rcases List.mem_cons.mp hacc with rfl | ht'
          · exact Or.inr ⟨sub, List.mem_cons_self _ _, rfl⟩
          · exact Or.inl ht'
        · exact Or.inr ⟨s, List.mem_cons_of_mem _ hs, hst⟩
      case neg =>
        rw [if_neg hn]
        have h2' : ∀ t ∈ acc, t.id ∈ sub.timite.id :: seen := by
          intro t ht
          exact List.mem_cons_of_mem _ (h2 t ht)
        have h3' : ∀ t ∈ acc, ∀ e ∈ (remove_key subs sub.session.key).1,
            e.2.timite.id ≠ t.id := by
          intro t ht e he
          exact h3 t ht e (hsub1.subset he)
        obtain ⟨c1, c2, c3⟩ := ih (remove_key subs sub.session.key).1
          (sub.timite.id :: seen) acc h1 h2' h3'
        refine ⟨c1, ?_, c3⟩
        intro t ht
        rcases c2 t ht with h | ⟨s, hs, hst⟩
        · exact Or.inl h
        · exact Or.inr ⟨s, List.mem_cons_of_mem _ hs, hst⟩

theorem prune_disconnected_spec (subs : List (String × Subscriber))
    (disc : List Subscriber) :
    ((prune_disconnected subs disc).2.map Timite.id).Nodup ∧
    (∀ t ∈ (prune_disconnected subs disc).2, ∃ s ∈ disc, s.timite = t) ∧
    (∀ t ∈ (prune_disconnected subs disc).2,
      ∀ e ∈ (prune_disconnected subs disc).1, e.2.timite.id ≠ t.id) := by
  unfold prune_disconnected
  split
  · exact ⟨by simp, by simp, by simp⟩
  · obtain ⟨c1, c2, c3⟩ := prune_loop_spec disc subs [] [] (by simp) (by simp) (by simp)
    refine ⟨c1, ?_, c3⟩
    intro t ht
    rcases c2 t ht with h' | h'
    · exact absurd h' (List.not_mem_nil t)
    · exact h'

theorem cleanup_eventLog (st : SpaceState) :
    (cleanup_disconnected true st).1.state.eventLog =
      st.eventLog ++ disconnected_events st.updCounter
        (prune_disconnected st.subscribers
          ((st.subscribers.map Prod.snd).filter (fun s => !s.chanOpen))).2 := by
  unfold cleanup_disconnected subscriber_snapshot
  rw [batch_eventLog]

theorem subscribe_eventLog (st : SpaceState) (ro : Bool) (session : Session)
    (timite : Timite) :
    (subscribe true st ro session timite).state.eventLog =
      (if ((st.subscribers.filter (fun e => e.2.chanOpen)).any
          (fun e => e.2.timite.id == timite.id)) = true
       then st.eventLog
       else st.eventLog ++ [event_timite_connected st.updCounter timite]) := by
  by_cases hw : ((st.subscribers.filter (fun e => e.2.chanOpen)).any
      (fun e => e.2.timite.id == timite.id)) = true
  · rw [if_pos hw]
    unfold subscribe
    rw [if_pos hw]
  · rw [if_neg hw]
    unfold subscribe
    rw [if_neg hw]
    have hopen : ∀ e ∈ insert_sub (st.subscribers.filter (fun e => e.2.chanOpen))
        session.key ⟨ro, true, session, timite⟩, e.2.chanOpen = true := by
      intro e he
      rcases mem_insert_sub he with h | h
      · rw [h]
      · exact (List.mem_filter.mp h).2
    show (publish_event_body true
        ⟨st.updCounter, insert_sub (st.subscribers.filter (fun e => e.2.chanOpen))
          session.key ⟨ro, true, session, timite⟩, st.eventLog⟩
        (fun i => event_timite_connected i timite) none).state.eventLog = _
    rw [publish_event_body_eventLog]
    dsimp only
    rw [broadcast_disconnected_nil_of_open _ _ _ hopen]
    simp [prune_disconnected, disconnected_events]

/-- Counterexample to claim C4 as stated: participant 3 ("r") holds one
subscription whose channel has closed, with `receive_own=false`; it is
self-filtered out of the broadcast of participant 3's own message, so
its dead channel goes unnoticed there; participant 2's ("q") dead entry
IS noticed and pruned, and while broadcasting `TimiteDisconnected{q}`
the server finds r's channel closed — but `publish_timite_disconnected`
DISCARDS the prune result, so r's entry is removed (its live-subscription
count falls to 0) without any `TimiteDisconnected{r}` ever being emitted:
the final registry is empty yet the log holds only q's disconnect. -/
theorem presence_missed_disconnect_counterexample :
    (publish_message true
        ⟨10, [("kq", ⟨true, false, ⟨"kq", 2⟩, ⟨2, "q"⟩⟩),
              ("kr", ⟨false, false, ⟨"kr", 3⟩, ⟨3, "r"⟩⟩)], []⟩
        ⟨1, 3, "hi"⟩).state.subscribers = [] ∧
    (publish_message true
        ⟨10, [("kq", ⟨true, false, ⟨"kq", 2⟩, ⟨2, "q"⟩⟩),
              ("kr", ⟨false, false, ⟨"kr", 3⟩, ⟨3, "r"⟩⟩)], []⟩
        ⟨1, 3, "hi"⟩).state.eventLog =
      [event_new_message 10 ⟨1, 3, "hi"⟩,
       event_timite_disconnected 11 ⟨2, "q"⟩] := by
  refine ⟨by decide, by decide⟩

/-- Claim C4 amended: a `TimiteConnected` is emitted exactly when a
subscribe finds, after discarding closed entries, no surviving
subscription of the caller's participant (and a subscribe never emits a
`TimiteDisconnected`).  `TimiteDisconnected` events are emitted only for
removals detected while broadcasting a message/call/outcome/connected
event or during the periodic cleanup: in those passes exactly one
disconnect event is appended per timite reported by the pruning routine,
which reports each participant at most once, only participants drawn
from the broken entries, and only when none of their entries survives
the pruning; removals detected while broadcasting a `TimiteDisconnected`
event itself (and the closed entries discarded by subscribe) are removed
silently, with no event. -/
theorem presence_events_amended :
    (∀ (st : SpaceState) (ro : Bool) (session : Session) (timite : Timite),
      (subscribe true st ro session timite).state.eventLog =
        (if ((st.subscribers.filter (fun e => e.2.chanOpen)).any
            (fun e => e.2.timite.id == timite.id)) = true
         then st.eventLog
         else st.eventLog ++ [event_timite_connected st.updCounter timite])) ∧
    (∀ (st : SpaceState) (m : Message),
      (publish_message true st m).state.eventLog =
        st.eventLog ++ [event_new_message st.updCounter m] ++
          disconnected_events ((st.updCounter + 1) % U64MOD)
            (prune_disconnected st.subscribers
              (broadcast_event st.subscribers (event_new_message st.updCounter m)
                (some m.sender_id)).disconnected).2) ∧
    (∀ (subs : List (String × Subscriber)) (disc : List Subscriber),
      ((prune_disconnected subs disc).2.map Timite.id).Nodup ∧
      (∀ t ∈ (prune_disconnected subs disc).2, ∃ s ∈ disc, s.timite = t) ∧
      (∀ t ∈ (prune_disconnected subs disc).2,
        ∀ e ∈ (prune_disconnected subs disc).1, e.2.timite.id ≠ t.id)) ∧
    (∀ (st : SpaceState) (t : Timite),
      (publish_timite_disconnected true st t).state.eventLog =
        st.eventLog ++ [event_timite_disconnected st.updCounter t]) ∧
    (∀ st : SpaceState,
      (cleanup_disconnected true st).1.state.eventLog =
        st.eventLog ++ disconnected_events st.updCounter
          (prune_disconnected st.subscribers
            ((st.subscribers.map Prod.snd).filter (fun s => !s.chanOpen))).2) := by
  refine ⟨subscribe_eventLog, ?_, prune_disconnected_spec, ?_, cleanup_eventLog⟩
  · intro st m
    exact publish_event_body_eventLog st (fun i => event_new_message i m)
      (some m.sender_id)
  · intro st t
    exact publish_timite_disconnected_eventLog st t

/-- Witness for the amended C4 at a concrete registry: pruning q's dead
entry reports q exactly once, and the surviving entry (r's, a different
participant) indeed does not carry q's participant id. -/
theorem presence_events_amended_witness :
    ((prune_disconnected
        [("kq", ⟨true, false, ⟨"kq", 2⟩, ⟨2, "q"⟩⟩),
         ("kr", ⟨true, true, ⟨"kr", 5⟩, ⟨5, "r"⟩⟩)]
        [⟨true, false, ⟨"kq", 2⟩, ⟨2, "q"⟩⟩]).2.map Timite.id).Nodup ∧
    (("kr", (⟨true, true, ⟨"kr", 5⟩, ⟨5, "r"⟩⟩ : Subscriber)) :
        String × Subscriber).2.timite.id ≠ (⟨2, "q"⟩ : Timite).id := by
  refine ⟨?_, ?_⟩
  · exact (presence_events_amended.2.2.1
      [("kq", ⟨true, false, ⟨"kq", 2⟩, ⟨2, "q"⟩⟩),
       ("kr", ⟨true, true, ⟨"kr", 5⟩, ⟨5, "r"⟩⟩)]
      [⟨true, false, ⟨"kq", 2⟩, ⟨2, "q"⟩⟩]).1
  · exact (presence_events_amended.2.2.1
      [("kq", ⟨true, false, ⟨"kq", 2⟩, ⟨2, "q"⟩⟩),
       ("kr", ⟨true, true, ⟨"kr", 5⟩, ⟨5, "r"⟩⟩)]
      [⟨true, false, ⟨"kq", 2⟩, ⟨2, "q"⟩⟩]).2.2
      ⟨2, "q"⟩ (by decide) ("kr", ⟨true, true, ⟨"kr", 5⟩, ⟨5, "r"⟩⟩) (by decide)

end Tim
